import Mathlib

/-!
Shallow embedding of `sharpy/plans/acts/grid_building.py` and
`sharpy/plans/acts/protoss/auto_pylon.py` from the sharpy-sc2 repository,
together with proofs settling the frozen claims C1 to C10 about the
construction scheduler, its worker stuck detector, its planned-site ledger
and the auto-pylon demand forecaster.

Modelling conventions:
- Python floats are modelled as exact rationals (`ℚ`); the claims under
  scrutiny are about branch structure and exact arithmetic identities, not
  about floating-point rounding.
- `Point2.distance_to_point2` (Euclidean distance, a square root) is only
  ever compared against positive constants in the embedded code, so those
  comparisons are embedded as comparisons of squared distance against the
  squared constant, which is equivalent over the exact reals.
- External collaborators (unit cache, income calculator, building solver,
  resource ledger, role registry, pathing, the `sc2` library's unit
  methods) are fields of a `World` record, following the interface
  boundary that the specification itself declares external.
  `Knowledge.can_afford` may depend on the reservation commands issued
  earlier in the same tick, so it receives the event list emitted so far.
- Commands sent to collaborators (build, move, reserve, set-task,
  clear-task, diagnostics) are recorded in an ordered event list.
-/

/-- A 2-dimensional map position (`sc2.position.Point2`), with exact
rational coordinates. -/
structure Point2 where
  x : ℚ
  y : ℚ
deriving DecidableEq, Repr

/-- Squared Euclidean distance between two points.  The source compares
`distance_to_point2` (the square root of this) against positive constants;
`dist2 p q < c ^ 2` is equivalent to `distance < c` for `c > 0`. -/
def dist2 (p q : Point2) : ℚ :=
  (p.x - q.x) ^ 2 + (p.y - q.y) ^ 2

/-- Snapshot of a worker unit (`sc2.unit.Unit`) as seen during one tick:
its tag, position, movement speed and whether it currently carries a
build order (`ActBase.has_build_order`). -/
structure SCUnit where
  tag : ℕ
  position : Point2
  movement_speed : ℚ
  has_build_order : Bool
deriving DecidableEq, Repr

/-- State of `WorkerStuckStatus` (grid_building.py lines 24-30).
`last_iteration_asked` is an integer as in the source (initialised to 0). -/
structure WorkerStuckStatus where
  tag_stuck : Option ℕ
  last_move_detected_time : Option ℚ
  current_tag : Option ℕ
  last_moved_position : Option Point2
  last_iteration_asked : ℤ
deriving DecidableEq, Repr

/-- The freshly constructed detector (`WorkerStuckStatus.__init__`). -/
def WorkerStuckStatus.init : WorkerStuckStatus :=
  ⟨none, none, none, none, 0⟩

/-- The four assignments labelled `# reset` in `need_new_worker`
(lines 35-38 and 58-61): clear the stuck tag and re-anchor on the queried
worker.  Note that `last_iteration_asked` is not touched. -/
def resetState (s : WorkerStuckStatus) (w : SCUnit) (time : ℚ) : WorkerStuckStatus :=
  { s with tag_stuck := none, current_tag := some w.tag,
           last_move_detected_time := some time,
           last_moved_position := some w.position }

/-- `WorkerStuckStatus.need_new_worker` (grid_building.py lines 32-62),
returning the boolean result together with the updated detector state.

Control-flow notes mirroring the source:
- the tick-gap branch (line 33) returns before `last_iteration_asked` is
  updated (line 41 is only reached when the gap test fails);
- inside the same-tag branch, the `if/elif` chain at lines 46-53 falls
  through to the trailing `# reset` block at lines 57-62 whenever it does
  not `return True`; the net effect of each such fall-through is exactly
  `resetState` (the interim mutations at lines 47 and 49-50 are overwritten
  by the reset);
- `time - self.last_move_detected_time` at line 51 can only be evaluated in
  states where `last_move_detected_time` is set (every state with
  `current_tag` set also has it set); the embedding reads it with a default
  of 0 which is never used on reachable states. -/
def need_new_worker (s : WorkerStuckStatus) (current_worker : SCUnit) (time : ℚ)
    (target : Point2) (iteration : ℤ) : Bool × WorkerStuckStatus :=
  if s.last_iteration_asked < iteration - 1 then
    (false, resetState s current_worker time)
  else
    let s1 := { s with last_iteration_asked := iteration }
    if some current_worker.tag = s1.current_tag then
      if dist2 target current_worker.position < (5/2) ^ 2 then
        (false, s1)
      else
        match s1.last_moved_position with
        | none => (false, resetState s1 current_worker time)
        | some lmp =>
          if dist2 lmp current_worker.position > (1/2) ^ 2 then
            (false, resetState s1 current_worker time)
          else if time - s1.last_move_detected_time.getD 0 > 1 then
            (true, { s1 with tag_stuck := s1.current_tag })
          else
            (false, resetState s1 current_worker time)
    else if s1.tag_stuck = some current_worker.tag then
      (true, s1)
    else
      (false, resetState s1 current_worker time)

/-- One query to the detector: the worker presented, the simulated time,
the target position and the iteration number. -/
def DetectorCall : Type := SCUnit × ℚ × Point2 × ℤ

/-- Iteration number of a detector call. -/
def iterOf (c : DetectorCall) : ℤ := c.2.2.2

/-- Feed a sequence of calls to the stuck detector, collecting the boolean
answers and the final state. -/
def runDetector (s : WorkerStuckStatus) : List DetectorCall → List Bool × WorkerStuckStatus
  | [] => ([], s)
  | (u, t, tgt, it) :: rest =>
    let r := need_new_worker s u t tgt it
    let rr := runDetector r.2 rest
    (r.1 :: rr.1, rr.2)

/-- The worker of the C1 failing input: tag 1, motionless at the origin. -/
def c1u : SCUnit := ⟨1, ⟨0, 0⟩, 1, false⟩

/-- The build target of the C1 failing input, 10 units from the worker. -/
def c1tgt : Point2 := ⟨10, 0⟩

/-- Detector state after the first C1 call. -/
def c1s1 : WorkerStuckStatus := ⟨none, some 0, some 1, some ⟨0, 0⟩, 1⟩

/-- Detector state after the second C1 call. -/
def c1s2 : WorkerStuckStatus := ⟨none, some 1, some 1, some ⟨0, 0⟩, 2⟩

/-- Detector state after the third C1 call. -/
def c1s3 : WorkerStuckStatus := ⟨none, some 2, some 1, some ⟨0, 0⟩, 3⟩

/-- The task constants from `sharpy.managers.core.roles.UnitTask` that
grid_building.py uses. -/
inductive UnitTask where
  | Reserved : UnitTask
  | Building : UnitTask
deriving DecidableEq, Repr

/-- A command emitted to an external collaborator during one `execute`
tick: role changes (`roles.set_task` / `roles.clear_task`), build and move
orders issued to a worker, a resource reservation
(`knowledge.reserve(minerals, gas, time, type)` — the fixed unit type is
omitted), and the diagnostic `self.print` output. -/
inductive Event where
  | setTask : UnitTask → ℕ → Event
  | clearTask : ℕ → Event
  | build : ℕ → Point2 → Event
  | move : ℕ → Point2 → Event
  | reserve : ℚ → ℚ → ℚ → Event
  | printed : Event
deriving DecidableEq, Repr

/-- The keys of an insertion-ordered ledger (`OrderedDict` keys, in
order). -/
def keysOf (m : List (Point2 × Option ℕ)) : List Point2 :=
  m.map Prod.fst

/-- Reading `planned_positions_workers[position]`: the first entry with
the given key, if any. -/
def lookupPos (m : List (Point2 × Option ℕ)) (p : Point2) : Option (Option ℕ) :=
  (m.find? (fun e => e.1 = p)).map Prod.snd

/-- Writing `planned_positions_workers[position] = v` on an `OrderedDict`:
update in place when the key exists (insertion order is preserved),
append a fresh entry otherwise. -/
def odSet (m : List (Point2 × Option ℕ)) (p : Point2) (v : Option ℕ) :
    List (Point2 × Option ℕ) :=
  if p ∈ keysOf m then m.map (fun e => if e.1 = p then (p, v) else e)
  else m ++ [(p, v)]

/-- `planned_positions_workers.pop(position)`: drop the entry with the
given key, keeping the order of the remaining entries. -/
def odPop (m : List (Point2 × Option ℕ)) (p : Point2) : List (Point2 × Option ℕ) :=
  m.filter (fun e => decide (e.1 ≠ p))

/-- `set.add` on the active-builder set, modelled as an ordered
duplicate-free list. -/
def addTag (l : List ℕ) (t : ℕ) : List ℕ :=
  if t ∈ l then l else l ++ [t]

/-- The scheduler-owned state of one `GridBuilding` instance: the goal
count, the two policy flags, the potential-position queue (populated on
first use), the active-builder set, the planned-site ledger and the stuck
detector.  `to_count` is an integer because `AutoPylon` recomputes it each
tick from a `ceil`. -/
structure GridBuildingState where
  to_count : ℤ
  priority : Bool
  override_reserved : Bool
  potential_positions : Option (List Point2)
  active_builders : List ℕ
  planned_positions_workers : List (Point2 × Option ℕ)
  worker_stuck : WorkerStuckStatus
deriving DecidableEq, Repr

/-- Per-tick snapshot of every external collaborator grid_building.py
talks to.  Each field corresponds to one call surface:

- `prerequisite_progress`: `knowledge.prerequisite_progress(unit_type)`;
- `get_count ip inr`: `ActBase.get_count(unit_type, include_pending=ip,
  include_not_ready=inr)`;
- `solver_positions`: `get_potential_positions()` (the building solver's
  ordered 2x2 or 3x3 grid for the fixed `unit_type`);
- `buildings_closer_than1 p`: whether `ai.structures.closer_than(1, p)`
  is non-empty;
- `valid_for_race p`: the race-specific placement predicate selected in
  `plan_positions` (creep check, psionic-matrix check or terran addon
  check — all reading external world state);
- `by_tag`: `cache.by_tag`;
- `get_worker_builder`: `ActBase.get_worker_builder(position)`;
- `can_afford evs o`: `knowledge.can_afford(unit_type,
  check_supply_cost=False, override_reserved=o)`; it receives the commands
  already issued this tick because reservations can change the ledger's
  answer within a tick;
- `init_received t`: whether tag `t` was in `ai.unit_tags_received_action`
  when the tick started (commands issued during the tick add to it);
- `psionic_ok p`: the disjunction `my_race != Protoss or unit_type ==
  PYLON or ai.state.psionic_matrix.covers(p)`;
- `time` / `iteration`: `ai.time` and `knowledge.iteration`;
- `prerequisite_completion_time`: `GridBuilding.prerequisite_completion_time()`
  (a pure table lookup over external `building_progress` values);
- `cost_minerals` / `cost_vespene`: `ai.calculate_cost(unit_type)`;
- `mineral_income` / `gas_income`: the income calculator;
- `minerals` / `available_minerals` / `vespene` / `available_gas`: the
  resource ledger views;
- `distance_to u p`: `worker.distance_to(position)` from the `sc2`
  library;
- `to_new_ticks`: `sharpy.sc2math.to_new_ticks` (movement-speed unit
  conversion, outside the embedded sources);
- `adjust_build_to_move p`: `GridBuilding.adjust_build_to_move(position)`
  (a pathing/zone computation over external managers). -/
structure World where
  prerequisite_progress : ℚ
  get_count : Bool → Bool → ℕ
  solver_positions : List Point2
  buildings_closer_than1 : Point2 → Bool
  valid_for_race : Point2 → Bool
  by_tag : ℕ → Option SCUnit
  get_worker_builder : Point2 → Option SCUnit
  can_afford : List Event → Bool → Bool
  init_received : ℕ → Bool
  psionic_ok : Point2 → Bool
  time : ℚ
  iteration : ℤ
  prerequisite_completion_time : ℚ
  cost_minerals : ℚ
  cost_vespene : ℚ
  mineral_income : ℚ
  gas_income : ℚ
  minerals : ℚ
  available_minerals : ℚ
  vespene : ℚ
  available_gas : ℚ
  distance_to : SCUnit → Point2 → ℚ
  to_new_ticks : ℚ → ℚ
  adjust_build_to_move : Point2 → Point2

/-- Mutable context threaded through the per-site loop of `execute`: the
scheduler state, the tags that received a command this tick (the
`sc2` library adds a tag to `unit_tags_received_action` when a command is
issued to it), and the events emitted so far. -/
structure ExecState where
  grid : GridBuildingState
  received : List ℕ
  events : List Event

/-- `travel_time` of the pre-move branch (grid_building.py lines 202-203):
`worker.distance_to(position) / to_new_ticks(worker.movement_speed)`. -/
def travelTime (w : World) (worker : SCUnit) (position : Point2) : ℚ :=
  w.distance_to worker position / w.to_new_ticks worker.movement_speed

/-- `minerals_wait_time` of the pre-move branch (lines 205-208): the
mineral income is scaled by 0.93 before dividing. -/
def mineralsWaitTime (w : World) (override_reserved : Bool) : ℚ :=
  let adjusted_income := w.mineral_income * (93/100)
  let available_minerals := if override_reserved then w.minerals else w.available_minerals
  max 0 (w.cost_minerals - available_minerals) / max adjusted_income (1/100)

/-- `gas_wait_time` of the pre-move branch (lines 209-211): note the raw
`gas_income` is used, with no 0.93 adjustment. -/
def gasWaitTime (w : World) (override_reserved : Bool) : ℚ :=
  let available_gas := if override_reserved then w.vespene else w.available_gas
  max 0 (w.cost_vespene - available_gas) / max w.gas_income (1/100)

/-- Following the spec's words for claim C7, not the source: a gas wait
time whose income rate is "adjusted by the same 0.93 harvesting
inefficiency factor applied to the mineral income rate".  Compared against
`gasWaitTime` (translated from the source) to settle C7. -/
def gasWaitTimeSpecAdjusted (w : World) (override_reserved : Bool) : ℚ :=
  let adjusted_gas_income := w.gas_income * (93/100)
  let available_gas := if override_reserved then w.vespene else w.available_gas
  max 0 (w.cost_vespene - available_gas) / max adjusted_gas_income (1/100)

/-- `build_wait_time` (line 212): the maximum of the four wait estimates. -/
def buildWaitTime (w : World) (worker : SCUnit) (position : Point2)
    (override_reserved : Bool) : ℚ :=
  max (max (max (travelTime w worker position) w.prerequisite_completion_time)
        (mineralsWaitTime w override_reserved))
      (gasWaitTime w override_reserved)

/-- The worker-resolution step at the head of the per-site loop
(lines 153-164): look up the assigned tag; if the unit died, clear the
assignment; if the stuck detector flags it, emit the diagnostic, set the
unit's task to `Reserved` and clear the assignment (the local `worker`
variable keeps referring to the stuck unit).  Returns the resolved worker
(before the temp-worker fallback), the updated detector state, the updated
ledger and the emitted events. -/
def resolveWorker (w : World) (ws : WorkerStuckStatus)
    (planned : List (Point2 × Option ℕ)) (position : Point2) :
    Option SCUnit × WorkerStuckStatus × List (Point2 × Option ℕ) × List Event :=
  match (lookupPos planned position).getD none with
  | none => (none, ws, planned, [])
  | some tag =>
    match w.by_tag tag with
    | none => (none, ws, odSet planned position none, [])
    | some u =>
      let r := need_new_worker ws u w.time position w.iteration
      if r.1 then
        (some u, r.2, odSet planned position none,
         [Event.printed, Event.setTask UnitTask.Reserved u.tag])
      else
        (some u, r.2, planned, [])

/-- The worker handling one site after the temp-worker fallback of
lines 165-167: the resolved assigned worker if it survived resolution,
otherwise `get_worker_builder(position)`. -/
def resolvedWorker (w : World) (st : ExecState) (position : Point2) : Option SCUnit :=
  match (resolveWorker w st.grid.worker_stuck st.grid.planned_positions_workers position).1 with
  | some u => some u
  | none => w.get_worker_builder position

/-- Scheduler state after the worker-resolution step for one site. -/
def gridAfterResolve (w : World) (st : ExecState) (position : Point2) : GridBuildingState :=
  { st.grid with
    worker_stuck := (resolveWorker w st.grid.worker_stuck st.grid.planned_positions_workers position).2.1,
    planned_positions_workers :=
      (resolveWorker w st.grid.worker_stuck st.grid.planned_positions_workers position).2.2.1 }

/-- Event log after the worker-resolution step for one site. -/
def eventsAfterResolve (w : World) (st : ExecState) (position : Point2) : List Event :=
  st.events ++ (resolveWorker w st.grid.worker_stuck st.grid.planned_positions_workers position).2.2.2

/-- The guard of the build attempt (lines 173-188): affordability, tech
complete, no duplicate command this tick, no outstanding build order, and
psionic-matrix coverage for non-pylon protoss builds. -/
def buildCond (w : World) (events : List Event) (override_reserved : Bool)
    (received : List ℕ) (worker : SCUnit) (position : Point2) : Bool :=
  w.can_afford events override_reserved
    && decide (1 ≤ w.prerequisite_progress)
    && !(w.init_received worker.tag || decide (worker.tag ∈ received))
    && !worker.has_build_order
    && w.psionic_ok position

/-- The body of `for position in list(self.planned_positions_workers)`
(grid_building.py lines 151-225) for one position.  Returns the updated
context and `false` when the loop aborted the whole tick (`return False`
at line 170, taken when no worker at all is available). -/
def processPosition (w : World) (st : ExecState) (position : Point2) :
    ExecState × Bool :=
  let grid1 := gridAfterResolve w st position
  let ev1 := eventsAfterResolve w st position
  match resolvedWorker w st position with
  | none => (⟨grid1, st.received, ev1⟩, false)
  | some worker =>
    if buildCond w ev1 grid1.override_reserved st.received worker position then
      (⟨{ grid1 with
            planned_positions_workers := odPop grid1.planned_positions_workers position,
            active_builders := addTag grid1.active_builders worker.tag },
         st.received ++ [worker.tag],
         ev1 ++ [Event.build worker.tag position,
                 Event.setTask UnitTask.Building worker.tag]⟩, true)
    else if grid1.priority && !worker.has_build_order then
      let tr := travelTime w worker position
      let bw := buildWaitTime w worker position grid1.override_reserved
      let ev2 := ev1 ++ [Event.reserve w.cost_minerals w.cost_vespene bw]
      let planned2 :=
        if bw < tr + 1/10 then odSet grid1.planned_positions_workers position (some worker.tag)
        else grid1.planned_positions_workers
      if (lookupPos planned2 position).getD none = some worker.tag then
        (⟨{ grid1 with
              planned_positions_workers := planned2,
              active_builders := addTag grid1.active_builders worker.tag },
           st.received ++ [worker.tag],
           ev2 ++ [Event.setTask UnitTask.Building worker.tag,
                   Event.move worker.tag (w.adjust_build_to_move position)]⟩, true)
      else
        (⟨{ grid1 with planned_positions_workers := planned2 }, st.received, ev2⟩, true)
    else
      (⟨grid1, st.received, ev1⟩, true)

/-- Run the per-site loop over the snapshot of planned positions, stopping
at the first site whose processing aborts the tick. -/
def processList (w : World) (st : ExecState) : List Point2 → ExecState × Bool
  | [] => (st, true)
  | p :: rest =>
    let r := processPosition w st p
    if r.2 then processList w r.1 rest else (r.1, false)

/-- Whether an active builder survives the hygiene sweep of lines 144-148:
it must still exist and still carry a build order. -/
def keepActive (w : World) (tag : ℕ) : Bool :=
  match w.by_tag tag with
  | none => false
  | some u => u.has_build_order

/-- The hygiene sweep (lines 143-148): drop stale builder tags from the
active set and release their role. -/
def hygiene (w : World) (tags : List ℕ) : List ℕ × List Event :=
  (tags.filter (keepActive w),
   (tags.filter (fun t => !keepActive w t)).map Event.clearTask)

/-- The `while` loop of `plan_positions` (lines 275-286): while the ledger
holds fewer entries than `count_to_plan`, pop the next candidate; reject it
when a structure sits within distance 1 or the race-specific predicate
refuses it; plan it (unassigned) otherwise.  Running out of candidates
prints a diagnostic and stops.  Returns the remaining candidate queue, the
ledger and the emitted events. -/
def planLoop (w : World) (countToPlan : ℤ) (potential : List Point2)
    (planned : List (Point2 × Option ℕ)) (events : List Event) :
    List Point2 × List (Point2 × Option ℕ) × List Event :=
  if (planned.length : ℤ) < countToPlan then
    match potential with
    | [] => ([], planned, events ++ [Event.printed])
    | c :: rest =>
      if w.buildings_closer_than1 c || !w.valid_for_race c then
        planLoop w countToPlan rest planned events
      else
        planLoop w countToPlan rest (odSet planned c none) events
  else (potential, planned, events)
termination_by potential.length

/-- `GridBuilding.plan_positions` (lines 238-286): `count_to_plan` is the
goal count minus the pending-and-existing count
(`get_count(include_pending=True, include_not_ready=True)`), then the
candidate loop runs.  When `potential_positions` is still `None` the loop
body is never entered with candidates (execute populates it first; a bare
call sees the falsy empty queue). -/
def plan_positions (w : World) (g : GridBuildingState) :
    GridBuildingState × List Event :=
  let countToPlan : ℤ := g.to_count - (w.get_count true true : ℤ)
  match g.potential_positions with
  | none =>
    let r := planLoop w countToPlan [] g.planned_positions_workers []
    ({ g with planned_positions_workers := r.2.1 }, r.2.2)
  | some pot =>
    let r := planLoop w countToPlan pot g.planned_positions_workers []
    ({ g with potential_positions := some r.1,
              planned_positions_workers := r.2.1 }, r.2.2)

/-- Lines 139-140 of `execute`: populate the candidate queue from the
building solver on first use. -/
def ensurePotential (w : World) (g : GridBuildingState) : GridBuildingState :=
  match g.potential_positions with
  | none => { g with potential_positions := some w.solver_positions }
  | some _ => g

/-- Scheduler state after planning (lines 139-141) and the active-builder
hygiene sweep (lines 143-148), just before the per-site loop. -/
def preLoopGrid (w : World) (g : GridBuildingState) : GridBuildingState :=
  let pr := plan_positions w (ensurePotential w g)
  { pr.1 with active_builders := (hygiene w pr.1.active_builders).1 }

/-- Events emitted by planning and by the hygiene sweep. -/
def preLoopEvents (w : World) (g : GridBuildingState) : List Event :=
  (plan_positions w (ensurePotential w g)).2 ++
    (hygiene w (plan_positions w (ensurePotential w g)).1.active_builders).2

/-- The per-site loop of lines 151-225, run over the snapshot
`list(self.planned_positions_workers)` taken after planning. -/
def loopResult (w : World) (g : GridBuildingState) : ExecState × Bool :=
  processList w ⟨preLoopGrid w g, [], preLoopEvents w g⟩
    (keysOf (preLoopGrid w g).planned_positions_workers)

/-- The main path of `execute` (everything from line 138 on): populate the
candidate queue on first use, plan positions, sweep the active-builder
set, process each planned site in ledger order, and reassert the
`Building` role of every remaining active builder (lines 232-234; skipped
when the per-site loop aborted with `return False` at line 170). -/
def executeMain (w : World) (g : GridBuildingState) :
    Bool × GridBuildingState × List Event :=
  if (loopResult w g).2 then
    (false, (loopResult w g).1.grid,
     (loopResult w g).1.events ++
       (loopResult w g).1.grid.active_builders.map (Event.setTask UnitTask.Building))
  else
    (false, (loopResult w g).1.grid, (loopResult w g).1.events)

/-- `GridBuilding.execute` (grid_building.py lines 128-236): give up when
the tech prerequisite has not started (line 130), report the step done
when the count of existing structures — including ones under
construction but *excluding* pending build orders
(`include_pending=False, include_not_ready=True`) — already meets
`to_count` (lines 133-136), and otherwise run the main path. -/
def execute (w : World) (g : GridBuildingState) :
    Bool × GridBuildingState × List Event :=
  if w.prerequisite_progress ≤ 0 then (false, g, [])
  else if g.to_count ≤ (w.get_count false true : ℤ) then (true, g, [])
  else executeMain w g

/-- Snapshot of one Nexus for the auto-pylon forecaster: whether it is
ready, and `knowledge.time_until_idle` for it. -/
structure NexusInfo where
  ready : Bool
  time_until_idle : ℚ
deriving DecidableEq, Repr

/-- Per-tick snapshot of everything `AutoPylon` reads: the pylon build
duration (`calculate_cost(PYLON).time`), the supply costs the forecaster
looks up, the current `supply_used`, and the production structures from
the unit cache.  Gateways, robotics facilities and stargates are listed by
their `time_until_idle`; warpgates only by count (they are always assumed
ready). -/
structure PylonWorld where
  pylon_build_time : ℚ
  probe_supply : ℚ
  mothership_supply : ℚ
  zealot_supply : ℚ
  colossus_supply : ℚ
  immortal_supply : ℚ
  carrier_supply : ℚ
  voidray_supply : ℚ
  supply_used : ℚ
  nexuses : List NexusInfo
  gateways : List ℚ
  warpgate_count : ℕ
  robos : List ℚ
  stargates : List ℚ
  has_fleet_beacon : Bool
  has_mothership : Bool
  has_robotics_bay : Bool

/-- `AutoPylon.predict_supply` (auto_pylon.py lines 36-76): sums, over
every production structure that will be idle within
`pylon_build_duration + time_buffer`, the supply cost of its next unit,
plus a pending mothership and the always-assumed warpgate units, plus the
current `supply_used`. -/
def predict_supply (w : PylonWorld) (time_buffer : ℚ) : ℚ :=
  let lookahead := w.pylon_build_time + time_buffer
  let nexus_inc :=
    (w.nexuses.map (fun n => if n.time_until_idle < lookahead then w.probe_supply else 0)).sum
  let mothership_inc :=
    if w.has_fleet_beacon && !w.has_mothership then w.mothership_supply else 0
  let gateway_inc :=
    (w.gateways.map (fun t => if t < lookahead then w.zealot_supply else 0)).sum
  let warpgate_inc := (w.warpgate_count : ℚ) * w.zealot_supply
  let robo_inc :=
    (w.robos.map (fun t =>
      if t < lookahead then
        (if w.has_robotics_bay then w.colossus_supply else w.immortal_supply)
      else 0)).sum
  let stargate_inc :=
    (w.stargates.map (fun t =>
      if t < lookahead then
        (if w.has_fleet_beacon then w.carrier_supply else w.voidray_supply)
      else 0)).sum
  nexus_inc + mothership_inc + gateway_inc + warpgate_inc + robo_inc + stargate_inc
    + w.supply_used

/-- The maxed-out correction of `pylon_count_calc` (auto_pylon.py
line 26): the supply prediction used downstream is clamped to 200. -/
def supplyPrediction (w : PylonWorld) : ℚ :=
  min (predict_supply w 3) 200

/-- The Nexus count of `pylon_count_calc` (lines 29-32): ready Nexuses
plus in-progress ones that finish within the lookahead. -/
def nexusCount (w : PylonWorld) : ℤ :=
  ((w.nexuses.filter (fun n => n.ready)).length : ℤ)
    + ((w.nexuses.filter (fun n => !n.ready
          && decide (n.time_until_idle < w.pylon_build_time + 3))).length : ℤ)

/-- `AutoPylon.pylon_count_calc` (auto_pylon.py lines 20-34): the dynamic
`to_count` is `ceil((supply_prediction - 15 * nexus_count) / 8)` with the
prediction clamped at 200. -/
def pylon_count_calc (w : PylonWorld) : ℤ :=
  ⌈(supplyPrediction w - 15 * (nexusCount w : ℚ)) / 8⌉

/-- A world snapshot whose collaborators are all inert: no structures, no
workers, no resources, unit prerequisites ready.  Concrete scenarios
override individual fields. -/
def baseWorld : World :=
  { prerequisite_progress := 1
    get_count := fun _ _ => 0
    solver_positions := []
    buildings_closer_than1 := fun _ => false
    valid_for_race := fun _ => true
    by_tag := fun _ => none
    get_worker_builder := fun _ => none
    can_afford := fun _ _ => false
    init_received := fun _ => false
    psionic_ok := fun _ => true
    time := 0
    iteration := 0
    prerequisite_completion_time := 0
    cost_minerals := 0
    cost_vespene := 0
    mineral_income := 0
    gas_income := 0
    minerals := 0
    available_minerals := 0
    vespene := 0
    available_gas := 0
    distance_to := fun _ _ => 0
    to_new_ticks := fun s => s
    adjust_build_to_move := fun p => p }

/-- A freshly started one-structure `GridBuilding` goal with priority
pre-moves enabled and an already-populated (empty) candidate queue. -/
def baseGrid : GridBuildingState :=
  { to_count := 1
    priority := true
    override_reserved := false
    potential_positions := some []
    active_builders := []
    planned_positions_workers := []
    worker_stuck := WorkerStuckStatus.init }

/-- A probe snapshot used as the resolved temp worker in scenarios. -/
def probe : SCUnit := ⟨7, ⟨0, 0⟩, 1, false⟩

/-- C3 counterexample world: the existing-structure count already meets
the goal. -/
def c3w : World := { baseWorld with get_count := fun _ _ => 1 }

/-- C3 counterexample state: one site is still planned when the count is
met. -/
def c3g : GridBuildingState :=
  { baseGrid with planned_positions_workers := [(⟨0, 0⟩, none)] }

/-- C4 counterexample world: one pending build order
(`get_count(include_pending=True) = 1`) but no existing structure
(`get_count(include_pending=False) = 0`). -/
def c4wPending : World :=
  { baseWorld with get_count := fun ip _ => if ip then 1 else 0 }

/-- C4 counterexample world: counts met but the tech prerequisite has not
started. -/
def c4wNoPrereq : World :=
  { baseWorld with prerequisite_progress := 0, get_count := fun _ _ => 1 }

/-- C5 counterexample state: two sites already planned while
`to_count - pending_and_existing` is only 1 (the goal shrank, e.g. an
`AutoPylon` recomputing `to_count` downward). -/
def c5g : GridBuildingState :=
  { baseGrid with planned_positions_workers := [(⟨0, 0⟩, none), (⟨1, 0⟩, none)] }

/-- The planned site of the C7/C8 pre-move scenarios. -/
def c8p : Point2 := ⟨5, 5⟩

/-- C8 scenario world: the structure costs 100 minerals, the adjusted
mineral income is exactly 10 (raw income 1000/93), the worker is 4
travel-seconds away, and a builder resolves but affordability is denied so
the build attempt falls through to the pre-move branch. -/
def c8w : World :=
  { baseWorld with
    get_worker_builder := fun _ => some probe
    cost_minerals := 100
    mineral_income := 1000/93
    distance_to := fun _ _ => 4 }

/-- C8 scenario goal state: the site is planned and unassigned. -/
def c8g : GridBuildingState :=
  { baseGrid with planned_positions_workers := [(c8p, none)] }

/-- C8 scenario loop context. -/
def c8st : ExecState := ⟨c8g, [], []⟩

/-- C8 witness world: everything is free and the worker is 20
travel-seconds away, so `build_wait = travel_time < travel_time + 0.1`
and the pre-move commits. -/
def c8bw : World :=
  { baseWorld with
    get_worker_builder := fun _ => some probe
    distance_to := fun _ _ => 20 }

/-- C7 counterexample world: the structure costs 93 gas and the gas
income rate is 1, so the code's wait (no 0.93 adjustment) is 93 while the
spec's adjusted formula gives 100. -/
def c7w : World :=
  { baseWorld with
    get_worker_builder := fun _ => some probe
    cost_vespene := 93
    gas_income := 1 }

/-- C9 witness ledger: two planned sites with assigned workers 5 and 6. -/
def c9m : List (Point2 × Option ℕ) := [(⟨0, 0⟩, some 5), (⟨1, 1⟩, some 6)]

/-- C10 witness world: nothing in production but `supply_used` is already
250, so the raw prediction 250 exceeds the 200 cap. -/
def c10w : PylonWorld :=
  { pylon_build_time := 18
    probe_supply := 1
    mothership_supply := 8
    zealot_supply := 2
    colossus_supply := 6
    immortal_supply := 4
    carrier_supply := 6
    voidray_supply := 4
    supply_used := 250
    nexuses := []
    gateways := []
    warpgate_count := 0
    robos := []
    stargates := []
    has_fleet_beacon := false
    has_mothership := false
    has_robotics_bay := false }

/-- The tick-gap branch: taken exactly when `last_iteration_asked < iteration - 1`,
it answers `false` and resets without updating `last_iteration_asked`. -/
theorem need_new_worker_gap (s : WorkerStuckStatus) (u : SCUnit) (t : ℚ)
    (tgt : Point2) (it : ℤ) (h : s.last_iteration_asked < it - 1) :
    need_new_worker s u t tgt it = (false, resetState s u t) := by
  unfold need_new_worker
  rw [if_pos h]

theorem resetState_lia (s : WorkerStuckStatus) (u : SCUnit) (t : ℚ) :
    (resetState s u t).last_iteration_asked = s.last_iteration_asked := rfl

/-- Every call of a run whose iteration number exceeds the (never-changing)
`last_iteration_asked` by more than one takes the gap branch: all answers
are `false` and `last_iteration_asked` is never written. -/
theorem runDetector_all_gap (calls : List DetectorCall) :
    ∀ s : WorkerStuckStatus, (∀ c ∈ calls, s.last_iteration_asked < iterOf c - 1) →
      (runDetector s calls).1 = calls.map (fun _ => false) ∧
      (runDetector s calls).2.last_iteration_asked = s.last_iteration_asked := by
  induction calls with
  | nil => intro s _; simp [runDetector]
  | cons c rest ih =>
    intro s h
    obtain ⟨u, t, tgt, it⟩ := c
    have h1 : s.last_iteration_asked < it - 1 := h _ (List.mem_cons_self _ _)
    have h2 : ∀ c ∈ rest, (resetState s u t).last_iteration_asked < iterOf c - 1 := by
      intro c hc
      rw [resetState_lia]
      exact h c (List.mem_cons_of_mem _ hc)
    have hrest := ih (resetState s u t) h2
    simp [runDetector, need_new_worker_gap s u t tgt it h1, hrest.1, hrest.2, resetState_lia]

/-- C2: once the gap-reset branch is taken, `last_iteration_asked` is left
unchanged by it; hence along any strictly increasing iteration sequence
whose first call already satisfies the gap condition (for example a fresh
detector first queried at iteration ≥ 2), every call takes the gap-reset
branch and answers `false` — the detector can never flag a worker again
after a single tick gap greater than one. -/
theorem C2_gap_branch_never_recovers (s : WorkerStuckStatus) (u0 : SCUnit) (t0 : ℚ)
    (tgt0 : Point2) (it0 : ℤ) (rest : List DetectorCall)
    (hchain : List.Chain' (· < ·) (((u0, t0, tgt0, it0) :: rest).map iterOf))
    (hgap : s.last_iteration_asked < it0 - 1) :
    (runDetector s ((u0, t0, tgt0, it0) :: rest)).1 =
      ((u0, t0, tgt0, it0) :: rest).map (fun _ => false) ∧
    (runDetector s ((u0, t0, tgt0, it0) :: rest)).2.last_iteration_asked =
      s.last_iteration_asked := by
  apply runDetector_all_gap
  intro c hc
  rcases List.mem_cons.1 hc with h | h
  · subst h
    simpa [iterOf] using hgap
  · have hpair : List.Pairwise (· < ·) (((u0, t0, tgt0, it0) :: rest).map iterOf) :=
      List.chain'_iff_pairwise.1 hchain
    rw [List.map_cons, List.pairwise_cons] at hpair
    have : iterOf (u0, t0, tgt0, it0) < iterOf c :=
      hpair.1 _ (List.mem_map_of_mem _ h)
    have h1 : it0 < iterOf c := by simpa [iterOf] using this
    omega

/-- Witness for C2 at a concrete input: a fresh detector (so
`last_iteration_asked = 0`) first queried at iteration 2, then at
iterations 5 and 9, with a worker that sits still far from its target the
whole time: every answer is `false`. -/
theorem C2_gap_branch_never_recovers_witness :
    (runDetector WorkerStuckStatus.init
      [(⟨1, ⟨0, 0⟩, 1, false⟩, 0, ⟨10, 0⟩, 2),
       (⟨1, ⟨0, 0⟩, 1, false⟩, 2, ⟨10, 0⟩, 5),
       (⟨1, ⟨0, 0⟩, 1, false⟩, 4, ⟨10, 0⟩, 9)]).1 = [false, false, false] ∧
    (runDetector WorkerStuckStatus.init
      [(⟨1, ⟨0, 0⟩, 1, false⟩, 0, ⟨10, 0⟩, 2),
       (⟨1, ⟨0, 0⟩, 1, false⟩, 2, ⟨10, 0⟩, 5),
       (⟨1, ⟨0, 0⟩, 1, false⟩, 4, ⟨10, 0⟩, 9)]).2.last_iteration_asked = 0 := by
  have h := C2_gap_branch_never_recovers WorkerStuckStatus.init
    ⟨1, ⟨0, 0⟩, 1, false⟩ 0 ⟨10, 0⟩ 2
    [(⟨1, ⟨0, 0⟩, 1, false⟩, 2, ⟨10, 0⟩, 5), (⟨1, ⟨0, 0⟩, 1, false⟩, 4, ⟨10, 0⟩, 9)]
    (by norm_num [List.chain'_cons, iterOf])
    (by norm_num [WorkerStuckStatus.init])
  simpa [WorkerStuckStatus.init] using h

theorem c1step1 : need_new_worker WorkerStuckStatus.init c1u 0 c1tgt 1 = (false, c1s1) := by
  norm_num [need_new_worker, resetState, WorkerStuckStatus.init, c1u, c1tgt, c1s1, dist2]
  intro _
  simp

theorem c1step2 : need_new_worker c1s1 c1u 1 c1tgt 2 = (false, c1s2) := by
  norm_num [need_new_worker, resetState, c1s1, c1u, c1tgt, c1s2, dist2]

theorem c1step3 : need_new_worker c1s2 c1u 2 c1tgt 3 = (false, c1s3) := by
  norm_num [need_new_worker, resetState, c1s2, c1u, c1tgt, c1s3, dist2]

/-- C1, code-bug evidence.  A fresh detector is queried at consecutive
iterations 1, 2, 3 at times 0, 1, 2 with the same worker (tag 1), which
sits motionless at the origin while its target is 10 units away (well
beyond the 2.5 close-enough radius).  The cumulative static time since the
first anchor reaches 2.0 > 1.0 by the third call, so the claim (and
section 4.1/8 of the specification) demand `true` on the third call; the
code answers `false` on all three calls, because every non-flagging
same-tag call falls through to the trailing `# reset` block which
re-anchors `last_move_detected_time` to the current call time, so static
time never accumulates across calls spaced at most 1.0 apart.  The
conjuncts record that the scenario really is in the claimed regime: the
worker is beyond 2.5 of the target, it never moves, the iteration numbers
are gap-free, and the total motionless time exceeds 1.0. -/
theorem C1_cumulative_static_time_not_detected :
    (runDetector WorkerStuckStatus.init
      [(c1u, 0, c1tgt, 1), (c1u, 1, c1tgt, 2), (c1u, 2, c1tgt, 3)]).1 =
      [false, false, false] ∧
    dist2 c1tgt c1u.position > (5/2) ^ 2 ∧
    ((2 : ℚ) - 0 > 1) := by
  refine ⟨?_, ?_, ?_⟩
  · simp [runDetector, c1step1, c1step2, c1step3]
  · norm_num [dist2, c1tgt, c1u]
  · norm_num

theorem keysOf_nil : keysOf [] = [] := rfl

theorem keysOf_cons (e : Point2 × Option ℕ) (l : List (Point2 × Option ℕ)) :
    keysOf (e :: l) = e.1 :: keysOf l := rfl

theorem keysOf_append (m l : List (Point2 × Option ℕ)) :
    keysOf (m ++ l) = keysOf m ++ keysOf l := by
  simp [keysOf]

theorem lookupPos_nil (p : Point2) : lookupPos [] p = none := rfl

/-- Reading an ordered ledger one entry at a time. -/
theorem lookupPos_cons (e : Point2 × Option ℕ) (l : List (Point2 × Option ℕ)) (p : Point2) :
    lookupPos (e :: l) p = if e.1 = p then some e.2 else lookupPos l p := by
  by_cases h : e.1 = p
  · simp [lookupPos, List.find?_cons_of_pos, h]
  · simp [lookupPos, List.find?_cons_of_neg, h]

theorem mem_keysOf_of_lookup (m : List (Point2 × Option ℕ)) (p : Point2)
    (x : Option ℕ) (h : lookupPos m p = some x) : p ∈ keysOf m := by
  induction m with
  | nil => simp [lookupPos_nil] at h
  | cons e l ih =>
    rw [lookupPos_cons] at h
    by_cases he : e.1 = p
    · simp [keysOf_cons, he]
    · rw [if_neg he] at h
      rw [keysOf_cons, List.mem_cons]
      exact Or.inr (ih h)

theorem lookupPos_eq_none_of_not_mem (m : List (Point2 × Option ℕ)) (p : Point2)
    (h : p ∉ keysOf m) : lookupPos m p = none := by
  induction m with
  | nil => rfl
  | cons e l ih =>
    rw [keysOf_cons, List.mem_cons] at h
    push_neg at h
    rw [lookupPos_cons, if_neg (fun hh => h.1 hh.symm)]
    exact ih h.2

/-- The in-place-update arm of `odSet` keeps the key sequence unchanged. -/
theorem keysOf_map_update (m : List (Point2 × Option ℕ)) (p : Point2) (v : Option ℕ) :
    keysOf (m.map (fun e => if e.1 = p then (p, v) else e)) = keysOf m := by
  induction m with
  | nil => rfl
  | cons e l ih =>
    by_cases he : e.1 = p
    · simp only [List.map_cons, if_pos he, keysOf_cons, ih]
      rw [he]
    · simp only [List.map_cons, if_neg he, keysOf_cons, ih]

/-- Updating a key changes the lookup at that key. -/
theorem lookupPos_map_update_self (m : List (Point2 × Option ℕ)) (p : Point2) (v : Option ℕ)
    (h : p ∈ keysOf m) :
    lookupPos (m.map (fun e => if e.1 = p then (p, v) else e)) p = some v := by
  induction m with
  | nil => simp [keysOf_nil] at h
  | cons e l ih =>
    by_cases he : e.1 = p
    · simp [List.map_cons, if_pos he, lookupPos_cons]
    · rw [keysOf_cons, List.mem_cons] at h
      rcases h with h | h
      · exact absurd h.symm he
      · simp only [List.map_cons, if_neg he, lookupPos_cons, if_neg he]
        exact ih h

/-- Updating a key leaves lookups at other keys unchanged. -/
theorem lookupPos_map_update_ne (m : List (Point2 × Option ℕ)) (p : Point2) (v : Option ℕ)
    (q : Point2) (hqp : q ≠ p) :
    lookupPos (m.map (fun e => if e.1 = p then (p, v) else e)) q = lookupPos m q := by
  induction m with
  | nil => rfl
  | cons e l ih =>
    by_cases he : e.1 = p
    · simp only [List.map_cons, if_pos he, lookupPos_cons]
      rw [if_neg (fun hh : p = q => hqp hh.symm),
          if_neg (fun hh : e.1 = q => hqp (he ▸ hh).symm)]
      exact ih
    · simp only [List.map_cons, if_neg he, lookupPos_cons]
      by_cases heq : e.1 = q
      · rw [if_pos heq, if_pos heq]
      · rw [if_neg heq, if_neg heq]
        exact ih

/-- Lookup distributes over append, searching the left part first. -/
theorem lookupPos_append (m l : List (Point2 × Option ℕ)) (q : Point2) :
    lookupPos (m ++ l) q =
      match lookupPos m q with
      | some v => some v
      | none => lookupPos l q := by
  induction m with
  | nil => simp [lookupPos_nil]
  | cons e m' ih =>
    rw [List.cons_append, lookupPos_cons, lookupPos_cons]
    by_cases he : e.1 = q
    · rw [if_pos he, if_pos he]
    · rw [if_neg he, if_neg he, ih]

theorem keysOf_odSet_of_mem (m : List (Point2 × Option ℕ)) (p : Point2) (v : Option ℕ)
    (h : p ∈ keysOf m) : keysOf (odSet m p v) = keysOf m := by
  unfold odSet
  rw [if_pos h]
  exact keysOf_map_update m p v

/-- Membership in the keys after an `odSet`. -/
theorem mem_keysOf_odSet (m : List (Point2 × Option ℕ)) (p : Point2) (v : Option ℕ)
    (q : Point2) : q ∈ keysOf (odSet m p v) ↔ q ∈ keysOf m ∨ q = p := by
  unfold odSet
  by_cases h : p ∈ keysOf m
  · rw [if_pos h, keysOf_map_update]
    constructor
    · exact Or.inl
    · rintro (hq | rfl)
      · exact hq
      · exact h
  · rw [if_neg h, keysOf_append]
    simp [keysOf]

theorem mem_keysOf_odSet_ne (m : List (Point2 × Option ℕ)) (p : Point2) (v : Option ℕ)
    (q : Point2) (hqp : q ≠ p) : q ∈ keysOf (odSet m p v) ↔ q ∈ keysOf m := by
  rw [mem_keysOf_odSet]
  simp [hqp]

theorem length_odSet_le (m : List (Point2 × Option ℕ)) (p : Point2) (v : Option ℕ) :
    (odSet m p v).length ≤ m.length + 1 := by
  unfold odSet
  by_cases h : p ∈ keysOf m
  · rw [if_pos h, List.length_map]
    omega
  · rw [if_neg h, List.length_append]
    simp

theorem nodup_keysOf_odSet (m : List (Point2 × Option ℕ)) (p : Point2) (v : Option ℕ)
    (h : (keysOf m).Nodup) : (keysOf (odSet m p v)).Nodup := by
  unfold odSet
  by_cases hp : p ∈ keysOf m
  · rw [if_pos hp, keysOf_map_update]
    exact h
  · rw [if_neg hp, keysOf_append]
    rw [List.nodup_append]
    refine ⟨h, List.nodup_singleton p, ?_⟩
    intro a ha hb
    simp [keysOf_cons, keysOf_nil] at hb
    exact hp (hb ▸ ha)

/-- Looking up the key just written by `odSet` yields the written value. -/
theorem lookupPos_odSet_self (m : List (Point2 × Option ℕ)) (p : Point2) (v : Option ℕ) :
    lookupPos (odSet m p v) p = some v := by
  unfold odSet
  by_cases h : p ∈ keysOf m
  · rw [if_pos h]
    exact lookupPos_map_update_self m p v h
  · rw [if_neg h, lookupPos_append, lookupPos_eq_none_of_not_mem m p h]
    simp [lookupPos_cons]

/-- `odSet` at one key does not disturb lookups at other keys. -/
theorem lookupPos_odSet_ne (m : List (Point2 × Option ℕ)) (p : Point2) (v : Option ℕ)
    (q : Point2) (hqp : q ≠ p) : lookupPos (odSet m p v) q = lookupPos m q := by
  unfold odSet
  by_cases h : p ∈ keysOf m
  · rw [if_pos h]
    exact lookupPos_map_update_ne m p v q hqp
  · rw [if_neg h, lookupPos_append]
    cases hm : lookupPos m q with
    | some x => rfl
    | none =>
      simp only [lookupPos_cons, lookupPos_nil]
      rw [if_neg (fun hh : p = q => hqp hh.symm)]

/-- The keys remaining after a `pop` are the old keys minus the popped
one. -/
theorem keysOf_odPop (m : List (Point2 × Option ℕ)) (p : Point2) :
    keysOf (odPop m p) = (keysOf m).filter (fun q => decide (q ≠ p)) := by
  induction m with
  | nil => rfl
  | cons e l ih =>
    by_cases he : e.1 = p
    · simp [odPop, keysOf_cons, List.filter_cons, he] at ih ⊢
      exact ih
    · simp [odPop, keysOf_cons, List.filter_cons, he] at ih ⊢
      exact ih

theorem not_mem_keysOf_odPop (m : List (Point2 × Option ℕ)) (p : Point2) :
    p ∉ keysOf (odPop m p) := by
  rw [keysOf_odPop]
  intro h
  rcases List.mem_filter.1 h with ⟨_, hd⟩
  simp at hd

theorem mem_keysOf_odPop_ne (m : List (Point2 × Option ℕ)) (p : Point2) (q : Point2)
    (hqp : q ≠ p) : q ∈ keysOf (odPop m p) ↔ q ∈ keysOf m := by
  rw [keysOf_odPop]
  constructor
  · intro h
    exact (List.mem_filter.1 h).1
  · intro h
    exact List.mem_filter.2 ⟨h, by simpa using hqp⟩

theorem lookup_getD_mem (m : List (Point2 × Option ℕ)) (q : Point2) (tag : ℕ)
    (hl : (lookupPos m q).getD none = some tag) : q ∈ keysOf m := by
  cases hlk : lookupPos m q with
  | none => rw [hlk] at hl; simp at hl
  | some x => exact mem_keysOf_of_lookup m q x hlk


theorem resolveWorker_keys (w : World) (ws : WorkerStuckStatus)
    (m : List (Point2 × Option ℕ)) (q : Point2) :
    keysOf (resolveWorker w ws m q).2.2.1 = keysOf m := by
  unfold resolveWorker
  split
  · rfl
  · rename_i tag hl
    have hq : q ∈ keysOf m := lookup_getD_mem m q tag hl
    split
    · simp [keysOf_odSet_of_mem m q none hq]
    · simp only []
      split
      · simp [keysOf_odSet_of_mem m q none hq]
      · simp

theorem resolveWorker_lookup_ne (w : World) (ws : WorkerStuckStatus)
    (m : List (Point2 × Option ℕ)) (q p : Point2) (hpq : p ≠ q) :
    lookupPos (resolveWorker w ws m q).2.2.1 p = lookupPos m p := by
  unfold resolveWorker
  split
  · rfl
  · split
    · simp [lookupPos_odSet_ne m q none p hpq]
    · simp only []
      split
      · simp [lookupPos_odSet_ne m q none p hpq]
      · simp

theorem resolveWorker_no_build (w : World) (ws : WorkerStuckStatus)
    (m : List (Point2 × Option ℕ)) (q : Point2) (t : ℕ) (p : Point2) :
    Event.build t p ∉ (resolveWorker w ws m q).2.2.2 := by
  unfold resolveWorker
  split
  · simp
  · split
    · simp
    · simp only []
      split
      · simp
      · simp

theorem gridAfterResolve_planned (w : World) (st : ExecState) (q : Point2) :
    (gridAfterResolve w st q).planned_positions_workers =
    (resolveWorker w st.grid.worker_stuck st.grid.planned_positions_workers q).2.2.1 := rfl

theorem gridAfterResolve_override (w : World) (st : ExecState) (q : Point2) :
    (gridAfterResolve w st q).override_reserved = st.grid.override_reserved := rfl

theorem gridAfterResolve_priority (w : World) (st : ExecState) (q : Point2) :
    (gridAfterResolve w st q).priority = st.grid.priority := rfl

theorem gridAfterResolve_keys (w : World) (st : ExecState) (q : Point2) :
    keysOf (gridAfterResolve w st q).planned_positions_workers =
    keysOf st.grid.planned_positions_workers := by
  rw [gridAfterResolve_planned]
  exact resolveWorker_keys w st.grid.worker_stuck st.grid.planned_positions_workers q

theorem eventsAfterResolve_def (w : World) (st : ExecState) (q : Point2) :
    eventsAfterResolve w st q =
    st.events ++ (resolveWorker w st.grid.worker_stuck st.grid.planned_positions_workers q).2.2.2 := rfl

/-- Everything the ledger-removal argument needs to know about one
iteration of the per-site loop: (a) events only grow, and the only build
commands appended are for the processed site; (b) membership of every
other key in the ledger is untouched; (c) when the processed site was in
the ledger and no build for it had been issued yet, it disappears from the
ledger exactly when a build command for it was appended. -/
theorem processPosition_spec (w : World) (st : ExecState) (q : Point2) :
    (∃ l, (processPosition w st q).1.events = st.events ++ l ∧
          ∀ t p', Event.build t p' ∈ l → p' = q) ∧
    (∀ p, p ≠ q →
      (p ∈ keysOf (processPosition w st q).1.grid.planned_positions_workers ↔
       p ∈ keysOf st.grid.planned_positions_workers)) ∧
    (q ∈ keysOf st.grid.planned_positions_workers →
     (∀ t, Event.build t q ∉ st.events) →
      (q ∉ keysOf (processPosition w st q).1.grid.planned_positions_workers ↔
       ∃ t, Event.build t q ∈ (processPosition w st q).1.events)) := by
  have hkeys := gridAfterResolve_keys w st q
  have hnob : ∀ t p,
      Event.build t p ∉ (resolveWorker w st.grid.worker_stuck st.grid.planned_positions_workers q).2.2.2 :=
    fun t p => resolveWorker_no_build w st.grid.worker_stuck st.grid.planned_positions_workers q t p
  simp only [processPosition]
  split
  · refine ⟨⟨_, eventsAfterResolve_def w st q, fun t p' hp' => absurd hp' (hnob t p')⟩, ?_, ?_⟩
    · intro p _
      rw [hkeys]
    · intro hq hnb
      rw [hkeys]
      constructor
      · intro h; exact absurd hq h
      · rintro ⟨t, ht⟩
        rw [eventsAfterResolve_def] at ht
        rcases List.mem_append.1 ht with h | h
        · exact absurd h (hnb t)
        · exact absurd h (hnob t q)
  · rename_i worker hres
    by_cases hbc : buildCond w (eventsAfterResolve w st q)
        (gridAfterResolve w st q).override_reserved st.received worker q = true
    · rw [if_pos hbc]
      refine ⟨⟨(resolveWorker w st.grid.worker_stuck st.grid.planned_positions_workers q).2.2.2 ++
          [Event.build worker.tag q, Event.setTask UnitTask.Building worker.tag],
          by simp [eventsAfterResolve_def, List.append_assoc], ?_⟩, ?_, ?_⟩
      · intro t p' hp'
        rcases List.mem_append.1 hp' with h | h
        · exact absurd h (hnob t p')
        · simp at h
          exact h.2
      · intro p hpq
        rw [mem_keysOf_odPop_ne _ _ _ hpq, hkeys]
      · intro hq hnb
        constructor
        · intro _
          refine ⟨worker.tag, ?_⟩
          simp [eventsAfterResolve_def]
        · intro _
          exact not_mem_keysOf_odPop _ _
    · rw [if_neg hbc]
      by_cases hpb : ((gridAfterResolve w st q).priority && !worker.has_build_order) = true
      · rw [if_pos hpb]
        by_cases hbw : buildWaitTime w worker q (gridAfterResolve w st q).override_reserved <
            travelTime w worker q + 1/10
        · rw [if_pos hbw]
          have hqmem : q ∈ keysOf (odSet (gridAfterResolve w st q).planned_positions_workers q
              (some worker.tag)) :=
            (mem_keysOf_odSet _ _ _ _).2 (Or.inr rfl)
          by_cases hlk : (lookupPos
              (odSet (gridAfterResolve w st q).planned_positions_workers q (some worker.tag)) q).getD none
              = some worker.tag
          · rw [if_pos hlk]
            refine ⟨⟨(resolveWorker w st.grid.worker_stuck st.grid.planned_positions_workers q).2.2.2 ++
                [Event.reserve w.cost_minerals w.cost_vespene
                  (buildWaitTime w worker q (gridAfterResolve w st q).override_reserved)] ++
                [Event.setTask UnitTask.Building worker.tag,
                 Event.move worker.tag (w.adjust_build_to_move q)],
                by simp [eventsAfterResolve_def, List.append_assoc], ?_⟩, ?_, ?_⟩
            · intro t p' hp'
              rcases List.mem_append.1 hp' with h | h
              · rcases List.mem_append.1 h with h | h
                · exact absurd h (hnob t p')
                · simp at h
              · simp at h
            · intro p hpq
              rw [mem_keysOf_odSet_ne _ _ _ _ hpq, hkeys]
            · intro hq hnb
              constructor
              · intro h; exact absurd hqmem h
              · rintro ⟨t, ht⟩
                simp only [eventsAfterResolve_def, List.append_assoc, List.mem_append] at ht
                rcases ht with h | h | h
                · exact absurd h (hnb t)
                · exact absurd h (hnob t q)
                · simp at h
          · rw [if_neg hlk]
            refine ⟨⟨(resolveWorker w st.grid.worker_stuck st.grid.planned_positions_workers q).2.2.2 ++
                [Event.reserve w.cost_minerals w.cost_vespene
                  (buildWaitTime w worker q (gridAfterResolve w st q).override_reserved)],
                by simp [eventsAfterResolve_def, List.append_assoc], ?_⟩, ?_, ?_⟩
            · intro t p' hp'
              rcases List.mem_append.1 hp' with h | h
              · exact absurd h (hnob t p')
              · simp at h
            · intro p hpq
              rw [mem_keysOf_odSet_ne _ _ _ _ hpq, hkeys]
            · intro hq hnb
              constructor
              · intro h; exact absurd hqmem h
              · rintro ⟨t, ht⟩
                simp only [eventsAfterResolve_def, List.append_assoc, List.mem_append] at ht
                rcases ht with h | h | h
                · exact absurd h (hnb t)
                · exact absurd h (hnob t q)
                · simp at h
        · rw [if_neg hbw]
          have hqm : q ∈ keysOf st.grid.planned_positions_workers →
              q ∈ keysOf (gridAfterResolve w st q).planned_positions_workers := by
            rw [hkeys]
            exact id
          by_cases hlk : (lookupPos (gridAfterResolve w st q).planned_positions_workers q).getD none
              = some worker.tag
          · rw [if_pos hlk]
            refine ⟨⟨(resolveWorker w st.grid.worker_stuck st.grid.planned_positions_workers q).2.2.2 ++
                [Event.reserve w.cost_minerals w.cost_vespene
                  (buildWaitTime w worker q (gridAfterResolve w st q).override_reserved)] ++
                [Event.setTask UnitTask.Building worker.tag,
                 Event.move worker.tag (w.adjust_build_to_move q)],
                by simp [eventsAfterResolve_def, List.append_assoc], ?_⟩, ?_, ?_⟩
            · intro t p' hp'
              rcases List.mem_append.1 hp' with h | h
              · rcases List.mem_append.1 h with h | h
                · exact absurd h (hnob t p')
                · simp at h
              · simp at h
            · intro p hpq
              rw [hkeys]
            · intro hq hnb
              constructor
              · intro h; exact absurd (hqm hq) h
              · rintro ⟨t, ht⟩
                simp only [eventsAfterResolve_def, List.append_assoc, List.mem_append] at ht
                rcases ht with h | h | h
                · exact absurd h (hnb t)
                · exact absurd h (hnob t q)
                · simp at h
          · rw [if_neg hlk]
            refine ⟨⟨(resolveWorker w st.grid.worker_stuck st.grid.planned_positions_workers q).2.2.2 ++
                [Event.reserve w.cost_minerals w.cost_vespene
                  (buildWaitTime w worker q (gridAfterResolve w st q).override_reserved)],
                by simp [eventsAfterResolve_def, List.append_assoc], ?_⟩, ?_, ?_⟩
            · intro t p' hp'
              rcases List.mem_append.1 hp' with h | h
              · exact absurd h (hnob t p')
              · simp at h
            · intro p hpq
              rw [hkeys]
            · intro hq hnb
              constructor
              · intro h; exact absurd (hqm hq) h
              · rintro ⟨t, ht⟩
                simp only [eventsAfterResolve_def, List.append_assoc, List.mem_append] at ht
                rcases ht with h | h | h
                · exact absurd h (hnb t)
                · exact absurd h (hnob t q)
                · simp at h
      · rw [if_neg hpb]
        refine ⟨⟨_, eventsAfterResolve_def w st q, fun t p' hp' => absurd hp' (hnob t p')⟩, ?_, ?_⟩
        · intro p _
          rw [hkeys]
        · intro hq hnb
          rw [hkeys]
          constructor
          · intro h; exact absurd hq h
          · rintro ⟨t, ht⟩
            rw [eventsAfterResolve_def] at ht
            rcases List.mem_append.1 ht with h | h
            · exact absurd h (hnb t)
            · exact absurd h (hnob t q)

/-- Positions not in the remaining snapshot are untouched by the rest of
the loop: their ledger membership and their build events are unchanged. -/
theorem processList_frame (w : World) :
    ∀ (ks : List Point2) (st : ExecState) (q : Point2), q ∉ ks →
      ((q ∈ keysOf (processList w st ks).1.grid.planned_positions_workers ↔
        q ∈ keysOf st.grid.planned_positions_workers) ∧
       (∀ t, Event.build t q ∈ (processList w st ks).1.events ↔
             Event.build t q ∈ st.events)) := by
  intro ks
  induction ks with
  | nil =>
    intro st q _
    exact ⟨Iff.rfl, fun t => Iff.rfl⟩
  | cons p rest ih =>
    intro st q hq
    have hqp : q ≠ p := fun h => hq (h ▸ List.mem_cons_self p rest)
    have hqrest : q ∉ rest := fun h => hq (List.mem_cons_of_mem p h)
    obtain ⟨⟨l, hl, hlb⟩, hframe, _⟩ := processPosition_spec w st p
    have hstep_keys := hframe q hqp
    have hstep_ev : ∀ t, Event.build t q ∈ (processPosition w st p).1.events ↔
        Event.build t q ∈ st.events := by
      intro t
      rw [hl]
      constructor
      · intro h
        rcases List.mem_append.1 h with h | h
        · exact h
        · exact absurd (hlb t q h) hqp
      · intro h
        exact List.mem_append.2 (Or.inl h)
    by_cases hc : (processPosition w st p).2 = true
    · have hrw : processList w st (p :: rest) = processList w (processPosition w st p).1 rest := by
        simp [processList, hc]
      rw [hrw]
      obtain ⟨ih1, ih2⟩ := ih (processPosition w st p).1 q hqrest
      exact ⟨ih1.trans hstep_keys, fun t => (ih2 t).trans (hstep_ev t)⟩
    · have hrw : processList w st (p :: rest) = ((processPosition w st p).1, false) := by
        simp [processList, hc]
      rw [hrw]
      exact ⟨hstep_keys, hstep_ev⟩

/-- Core loop lemma for the removal-iff-build property: over a
duplicate-free snapshot of ledger keys, each snapshot key disappears from
the ledger exactly when a build command for it appears in the event log. -/
theorem processList_pop_iff (w : World) :
    ∀ (ks : List Point2) (st : ExecState),
      ks.Nodup →
      (∀ p ∈ ks, p ∈ keysOf st.grid.planned_positions_workers) →
      (∀ p ∈ ks, ∀ t, Event.build t p ∉ st.events) →
      ∀ p ∈ ks,
        (p ∉ keysOf (processList w st ks).1.grid.planned_positions_workers ↔
         ∃ t, Event.build t p ∈ (processList w st ks).1.events) := by
  intro ks
  induction ks with
  | nil =>
    intro st _ _ _ p hp
    exact absurd hp (List.not_mem_nil p)
  | cons q rest ih =>
    intro st hnd hmem hnb p hp
    have hqrest : q ∉ rest := (List.nodup_cons.1 hnd).1
    have hndrest : rest.Nodup := (List.nodup_cons.1 hnd).2
    obtain ⟨⟨l, hl, hlb⟩, hframe, hpop⟩ := processPosition_spec w st q
    by_cases hc : (processPosition w st q).2 = true
    · have hrw : processList w st (q :: rest) = processList w (processPosition w st q).1 rest := by
        simp [processList, hc]
      rw [hrw]
      rcases List.mem_cons.1 hp with rfl | hp'
      · -- the processed position itself: settled by the step, framed by the rest
        obtain ⟨hfr1, hfr2⟩ := processList_frame w rest (processPosition w st p).1 p hqrest
        have hstep := hpop (hmem p (List.mem_cons_self p rest))
          (hnb p (List.mem_cons_self p rest))
        constructor
        · intro h
          obtain ⟨t, ht⟩ := hstep.1 (fun hh => h (hfr1.2 hh))
          exact ⟨t, (hfr2 t).2 ht⟩
        · rintro ⟨t, ht⟩
          intro hmem'
          have := hstep.2 ⟨t, (hfr2 t).1 ht⟩
          exact this (hfr1.1 hmem')
      · -- a later position: the step only reshuffles q, apply the IH
        have hmem' : ∀ r ∈ rest, r ∈ keysOf (processPosition w st q).1.grid.planned_positions_workers := by
          intro r hr
          have hrq : r ≠ q := fun h => hqrest (h ▸ hr)
          exact (hframe r hrq).2 (hmem r (List.mem_cons_of_mem q hr))
        have hnb' : ∀ r ∈ rest, ∀ t, Event.build t r ∉ (processPosition w st q).1.events := by
          intro r hr t ht
          have hrq : r ≠ q := fun h => hqrest (h ▸ hr)
          rw [hl] at ht
          rcases List.mem_append.1 ht with h | h
          · exact hnb r (List.mem_cons_of_mem q hr) t h
          · exact hrq (hlb t r h)
        exact ih (processPosition w st q).1 hndrest hmem' hnb' p hp'
    · have hrw : processList w st (q :: rest) = ((processPosition w st q).1, false) := by
        simp [processList, hc]
      rw [hrw]
      rcases List.mem_cons.1 hp with rfl | hp'
      · exact hpop (hmem p (List.mem_cons_self p rest)) (hnb p (List.mem_cons_self p rest))
      · -- loop aborted before reaching p: nothing changed for p
        have hpq : p ≠ q := fun h => hqrest (h ▸ hp')
        have hpk : p ∈ keysOf (processPosition w st q).1.grid.planned_positions_workers :=
          (hframe p hpq).2 (hmem p (List.mem_cons_of_mem q hp'))
        constructor
        · intro h
          exact absurd hpk h
        · rintro ⟨t, ht⟩
          rw [hl] at ht
          rcases List.mem_append.1 ht with h | h
          · exact absurd h (hnb p (List.mem_cons_of_mem q hp') t)
          · exact absurd (hlb t p h) hpq

/-- Planning never removes a ledger key. -/
theorem planLoop_keys_mono (w : World) (c : ℤ) (pot : List Point2) :
    ∀ (planned : List (Point2 × Option ℕ)) (events : List Event) (p : Point2),
      p ∈ keysOf planned → p ∈ keysOf (planLoop w c pot planned events).2.1 := by
  induction pot with
  | nil =>
    intro planned events p hp
    rw [planLoop.eq_def]
    by_cases h : (planned.length : ℤ) < c
    · rw [if_pos h]
      exact hp
    · rw [if_neg h]
      exact hp
  | cons cand rest ih =>
    intro planned events p hp
    rw [planLoop.eq_def]
    by_cases h : (planned.length : ℤ) < c
    · rw [if_pos h]
      simp only []
      by_cases hrej : (w.buildings_closer_than1 cand || !w.valid_for_race cand) = true
      · rw [if_pos hrej]
        exact ih planned events p hp
      · rw [if_neg hrej]
        exact ih (odSet planned cand none) events p ((mem_keysOf_odSet _ _ _ _).2 (Or.inl hp))
    · rw [if_neg h]
      exact hp

/-- Planning preserves key distinctness. -/
theorem planLoop_nodup (w : World) (c : ℤ) (pot : List Point2) :
    ∀ (planned : List (Point2 × Option ℕ)) (events : List Event),
      (keysOf planned).Nodup → (keysOf (planLoop w c pot planned events).2.1).Nodup := by
  induction pot with
  | nil =>
    intro planned events hnd
    rw [planLoop.eq_def]
    by_cases h : (planned.length : ℤ) < c
    · rw [if_pos h]
      exact hnd
    · rw [if_neg h]
      exact hnd
  | cons cand rest ih =>
    intro planned events hnd
    rw [planLoop.eq_def]
    by_cases h : (planned.length : ℤ) < c
    · rw [if_pos h]
      simp only []
      by_cases hrej : (w.buildings_closer_than1 cand || !w.valid_for_race cand) = true
      · rw [if_pos hrej]
        exact ih planned events hnd
      · rw [if_neg hrej]
        exact ih (odSet planned cand none) events (nodup_keysOf_odSet planned cand none hnd)
    · rw [if_neg h]
      exact hnd

/-- Planning emits no build command (only the out-of-positions
diagnostic). -/
theorem planLoop_no_build (w : World) (c : ℤ) (pot : List Point2) :
    ∀ (planned : List (Point2 × Option ℕ)) (events : List Event) (t : ℕ) (p : Point2),
      Event.build t p ∈ (planLoop w c pot planned events).2.2 →
      Event.build t p ∈ events := by
  induction pot with
  | nil =>
    intro planned events t p hmem
    rw [planLoop.eq_def] at hmem
    by_cases h : (planned.length : ℤ) < c
    · rw [if_pos h] at hmem
      rcases List.mem_append.1 hmem with h' | h'
      · exact h'
      · simp at h'
    · rw [if_neg h] at hmem
      exact hmem
  | cons cand rest ih =>
    intro planned events t p hmem
    rw [planLoop.eq_def] at hmem
    by_cases h : (planned.length : ℤ) < c
    · rw [if_pos h] at hmem
      simp only [] at hmem
      by_cases hrej : (w.buildings_closer_than1 cand || !w.valid_for_race cand) = true
      · rw [if_pos hrej] at hmem
        exact ih planned events t p hmem
      · rw [if_neg hrej] at hmem
        exact ih (odSet planned cand none) events t p hmem
    · rw [if_neg h] at hmem
      exact hmem

/-- At the end of a planning pass, the ledger is no longer than the larger
of its initial size and `count_to_plan`. -/
theorem planLoop_length (w : World) (c : ℤ) (pot : List Point2) :
    ∀ (planned : List (Point2 × Option ℕ)) (events : List Event),
      ((planLoop w c pot planned events).2.1.length : ℤ) ≤
        max (planned.length : ℤ) c := by
  induction pot with
  | nil =>
    intro planned events
    rw [planLoop.eq_def]
    by_cases h : (planned.length : ℤ) < c
    · rw [if_pos h]
      exact le_max_left _ _
    · rw [if_neg h]
      exact le_max_left _ _
  | cons cand rest ih =>
    intro planned events
    rw [planLoop.eq_def]
    by_cases h : (planned.length : ℤ) < c
    · rw [if_pos h]
      simp only []
      by_cases hrej : (w.buildings_closer_than1 cand || !w.valid_for_race cand) = true
      · rw [if_pos hrej]
        exact ih planned events
      · rw [if_neg hrej]
        have h1 := ih (odSet planned cand none) events
        have h2 : ((odSet planned cand none).length : ℤ) ≤ (planned.length : ℤ) + 1 := by
          have := length_odSet_le planned cand none
          omega
        have h3 : ((odSet planned cand none).length : ℤ) ≤ c := by omega
        calc ((planLoop w c rest (odSet planned cand none) events).2.1.length : ℤ)
            ≤ max ((odSet planned cand none).length : ℤ) c := h1
          _ ≤ c := by omega
          _ ≤ max (planned.length : ℤ) c := le_max_right _ _
    · rw [if_neg h]
      exact le_max_left _ _

theorem plan_positions_keys_mono (w : World) (g : GridBuildingState) (p : Point2)
    (hp : p ∈ keysOf g.planned_positions_workers) :
    p ∈ keysOf (plan_positions w g).1.planned_positions_workers := by
  unfold plan_positions
  cases g.potential_positions with
  | none => exact planLoop_keys_mono w _ [] _ [] p hp
  | some pot => exact planLoop_keys_mono w _ pot _ [] p hp

theorem plan_positions_nodup (w : World) (g : GridBuildingState)
    (hnd : (keysOf g.planned_positions_workers).Nodup) :
    (keysOf (plan_positions w g).1.planned_positions_workers).Nodup := by
  unfold plan_positions
  cases g.potential_positions with
  | none => exact planLoop_nodup w _ [] _ [] hnd
  | some pot => exact planLoop_nodup w _ pot _ [] hnd

theorem plan_positions_no_build (w : World) (g : GridBuildingState) (t : ℕ) (p : Point2) :
    Event.build t p ∉ (plan_positions w g).2 := by
  unfold plan_positions
  cases g.potential_positions with
  | none =>
    intro h
    have := planLoop_no_build w _ [] _ [] t p h
    simp at this
  | some pot =>
    intro h
    have := planLoop_no_build w _ pot _ [] t p h
    simp at this

theorem hygiene_no_build (w : World) (tags : List ℕ) (t : ℕ) (p : Point2) :
    Event.build t p ∉ (hygiene w tags).2 := by
  unfold hygiene
  intro h
  rcases List.mem_map.1 h with ⟨x, _, hx⟩
  cases hx

theorem ensurePotential_planned (w : World) (g : GridBuildingState) :
    (ensurePotential w g).planned_positions_workers = g.planned_positions_workers := by
  unfold ensurePotential
  split
  · rfl
  · rfl

theorem preLoopGrid_planned (w : World) (g : GridBuildingState) :
    (preLoopGrid w g).planned_positions_workers =
    (plan_positions w (ensurePotential w g)).1.planned_positions_workers := rfl

/-- The main path always reports "not done yet". -/
theorem executeMain_fst (w : World) (g : GridBuildingState) :
    (executeMain w g).1 = false := by
  unfold executeMain
  split
  · rfl
  · rfl

/-- `execute` returns `true` exactly on the early completion check. -/
theorem execute_true_iff (w : World) (g : GridBuildingState) :
    execute w g = (true, g, []) ↔
    (0 < w.prerequisite_progress ∧ g.to_count ≤ (w.get_count false true : ℤ)) := by
  unfold execute
  by_cases h1 : w.prerequisite_progress ≤ 0
  · rw [if_pos h1]
    constructor
    · intro h
      exact absurd (congrArg Prod.fst h) (by simp)
    · rintro ⟨h2, _⟩
      exact absurd h1 (not_le.2 h2)
  · rw [if_neg h1]
    by_cases h2 : g.to_count ≤ (w.get_count false true : ℤ)
    · rw [if_pos h2]
      exact ⟨fun _ => ⟨not_le.1 h1, h2⟩, fun _ => rfl⟩
    · rw [if_neg h2]
      constructor
      · intro h
        have := congrArg Prod.fst h
        rw [executeMain_fst] at this
        exact absurd this (by simp)
      · rintro ⟨_, h3⟩
        exact absurd h3 h2

/-- When the completion check fires (or the prerequisite gate refuses),
the scheduler state and the event log are untouched. -/
theorem execute_state_of_count_met (w : World) (g : GridBuildingState)
    (h : g.to_count ≤ (w.get_count false true : ℤ)) :
    (execute w g).2.1 = g ∧ (execute w g).2.2 = [] := by
  unfold execute
  by_cases h1 : w.prerequisite_progress ≤ 0
  · rw [if_pos h1]
    exact ⟨rfl, rfl⟩
  · rw [if_neg h1, if_pos h]
    exact ⟨rfl, rfl⟩

/-- Removal-iff-build over the main path. -/
theorem executeMain_pop_iff (w : World) (g : GridBuildingState)
    (hnd : (keysOf g.planned_positions_workers).Nodup)
    (p : Point2) (hp : p ∈ keysOf g.planned_positions_workers) :
    (p ∉ keysOf (executeMain w g).2.1.planned_positions_workers ↔
     ∃ t, Event.build t p ∈ (executeMain w g).2.2) := by
  have hp0 : p ∈ keysOf (ensurePotential w g).planned_positions_workers := by
    rw [ensurePotential_planned]
    exact hp
  have hnd0 : (keysOf (ensurePotential w g).planned_positions_workers).Nodup := by
    rw [ensurePotential_planned]
    exact hnd
  have hp1 : p ∈ keysOf (preLoopGrid w g).planned_positions_workers := by
    rw [preLoopGrid_planned]
    exact plan_positions_keys_mono w (ensurePotential w g) p hp0
  have hnd1 : (keysOf (preLoopGrid w g).planned_positions_workers).Nodup := by
    rw [preLoopGrid_planned]
    exact plan_positions_nodup w (ensurePotential w g) hnd0
  have hnb1 : ∀ q ∈ keysOf (preLoopGrid w g).planned_positions_workers,
      ∀ t, Event.build t q ∉ preLoopEvents w g := by
    intro q _ t ht
    rcases List.mem_append.1 ht with h | h
    · exact plan_positions_no_build w (ensurePotential w g) t q h
    · exact hygiene_no_build w _ t q h
  have hloop := processList_pop_iff w (keysOf (preLoopGrid w g).planned_positions_workers)
    ⟨preLoopGrid w g, [], preLoopEvents w g⟩ hnd1 (fun q hq => hq) hnb1 p hp1
  have hlr : loopResult w g = processList w ⟨preLoopGrid w g, [], preLoopEvents w g⟩
      (keysOf (preLoopGrid w g).planned_positions_workers) := rfl
  rw [← hlr] at hloop
  unfold executeMain
  split
  · constructor
    · intro h
      obtain ⟨t, ht⟩ := hloop.1 h
      exact ⟨t, List.mem_append.2 (Or.inl ht)⟩
    · rintro ⟨t, ht⟩
      rcases List.mem_append.1 ht with h | h
      · exact hloop.2 ⟨t, h⟩
      · rcases List.mem_map.1 h with ⟨x, _, hx⟩
        cases hx
  · exact hloop

/-- In the pre-move branch (build attempt refused, `priority` set, the
resolved worker free of build orders), `knowledge.reserve` is submitted
before the commit decision, so the reservation happens whether or not the
worker is then committed to the site. -/
theorem premove_reserve_mem (w : World) (st : ExecState) (q : Point2) (worker : SCUnit)
    (hres : resolvedWorker w st q = some worker)
    (hbc : buildCond w (eventsAfterResolve w st q) st.grid.override_reserved
      st.received worker q = false)
    (hpri : st.grid.priority = true)
    (hbo : worker.has_build_order = false) :
    Event.reserve w.cost_minerals w.cost_vespene
      (buildWaitTime w worker q st.grid.override_reserved)
      ∈ (processPosition w st q).1.events := by
  simp only [processPosition]
  rw [gridAfterResolve_override, gridAfterResolve_priority]
  split
  · rename_i h0
    rw [hres] at h0
    cases h0
  · rename_i worker' hW
    rw [hres] at hW
    injection hW with hww
    subst hww
    have hbcn : ¬ (buildCond w (eventsAfterResolve w st q) st.grid.override_reserved
        st.received worker q = true) := by
      rw [hbc]
      simp
    rw [if_neg hbcn]
    have hpb : (st.grid.priority && !worker.has_build_order) = true := by
      rw [hpri, hbo]
      rfl
    rw [if_pos hpb]
    by_cases hbw : buildWaitTime w worker q st.grid.override_reserved <
        travelTime w worker q + 1/10
    · rw [if_pos hbw]
      have hlkT : (lookupPos (odSet (gridAfterResolve w st q).planned_positions_workers q
          (some worker.tag)) q).getD none = some worker.tag := by
        rw [lookupPos_odSet_self]
        rfl
      rw [if_pos hlkT]
      simp [eventsAfterResolve_def]
    · rw [if_neg hbw]
      by_cases hlk : (lookupPos (gridAfterResolve w st q).planned_positions_workers q).getD none
          = some worker.tag
      · rw [if_pos hlk]
        simp [eventsAfterResolve_def]
      · rw [if_neg hlk]
        simp [eventsAfterResolve_def]

/-- When additionally `build_wait < travel_time + 0.1`, the pre-move
branch assigns the worker to the site and issues the move command. -/
theorem premove_commit (w : World) (st : ExecState) (q : Point2) (worker : SCUnit)
    (hres : resolvedWorker w st q = some worker)
    (hbc : buildCond w (eventsAfterResolve w st q) st.grid.override_reserved
      st.received worker q = false)
    (hpri : st.grid.priority = true)
    (hbo : worker.has_build_order = false)
    (hbw : buildWaitTime w worker q st.grid.override_reserved <
      travelTime w worker q + 1/10) :
    lookupPos (processPosition w st q).1.grid.planned_positions_workers q =
      some (some worker.tag) ∧
    Event.move worker.tag (w.adjust_build_to_move q) ∈ (processPosition w st q).1.events := by
  simp only [processPosition]
  rw [gridAfterResolve_override, gridAfterResolve_priority]
  split
  · rename_i h0
    rw [hres] at h0
    cases h0
  · rename_i worker' hW
    rw [hres] at hW
    injection hW with hww
    subst hww
    have hbcn : ¬ (buildCond w (eventsAfterResolve w st q) st.grid.override_reserved
        st.received worker q = true) := by
      rw [hbc]
      simp
    rw [if_neg hbcn]
    have hpb : (st.grid.priority && !worker.has_build_order) = true := by
      rw [hpri, hbo]
      rfl
    rw [if_pos hpb, if_pos hbw]
    have hlkT : (lookupPos (odSet (gridAfterResolve w st q).planned_positions_workers q
        (some worker.tag)) q).getD none = some worker.tag := by
      rw [lookupPos_odSet_self]
      rfl
    rw [if_pos hlkT]
    constructor
    · exact lookupPos_odSet_self _ _ _
    · simp

/-- When a currently assigned worker has died and the stuck branch is the
relevant clearing reason, or the stuck detector fires for it, the
resolution step rewrites the site's entry to unassigned. -/
theorem resolveWorker_cleared (w : World) (ws : WorkerStuckStatus)
    (m : List (Point2 × Option ℕ)) (q : Point2) (tag : ℕ)
    (hlk : lookupPos m q = some (some tag))
    (hgone : w.by_tag tag = none ∨
      ∃ u, w.by_tag tag = some u ∧ (need_new_worker ws u w.time q w.iteration).1 = true) :
    (resolveWorker w ws m q).2.2.1 = odSet m q none := by
  unfold resolveWorker
  split
  · rename_i h0
    rw [hlk] at h0
    simp at h0
  · rename_i tag' h1
    rw [hlk] at h1
    simp only [Option.getD_some, Option.some.injEq] at h1
    subst h1
    split
    · rfl
    · rename_i u hbu
      simp only []
      split
      · rfl
      · rename_i hnr
        rcases hgone with h | ⟨u', hu', hs⟩
        · rw [h] at hbu
          cases hbu
        · rw [hu'] at hbu
          injection hbu with h2
          subst h2
          exact absurd hs hnr

/-- C3 (amended): during one `execute` call, a position that was in the
planned ledger is removed exactly when a build command was issued for it;
when the existing-structure count already meets `to_count`, `execute`
returns immediately and the planned sites are left in the ledger
unchanged (they are not removed). -/
theorem C3_removed_iff_build_issued (w : World) (g : GridBuildingState)
    (hnd : (keysOf g.planned_positions_workers).Nodup) :
    (∀ p ∈ keysOf g.planned_positions_workers,
      (p ∉ keysOf (execute w g).2.1.planned_positions_workers ↔
       ∃ t, Event.build t p ∈ (execute w g).2.2)) ∧
    (g.to_count ≤ (w.get_count false true : ℤ) →
      (execute w g).2.1 = g ∧ (execute w g).2.2 = []) := by
  constructor
  · intro p hp
    unfold execute
    by_cases h1 : w.prerequisite_progress ≤ 0
    · rw [if_pos h1]
      constructor
      · intro h
        exact absurd hp h
      · rintro ⟨t, ht⟩
        simp at ht
    · rw [if_neg h1]
      by_cases h2 : g.to_count ≤ (w.get_count false true : ℤ)
      · rw [if_pos h2]
        constructor
        · intro h
          exact absurd hp h
        · rintro ⟨t, ht⟩
          simp at ht
      · rw [if_neg h2]
        exact executeMain_pop_iff w g hnd p hp
  · exact execute_state_of_count_met w g

/-- C3 counterexample: with one site still planned and the existing count
meeting the goal, `execute` reports done but the planned site is *not*
removed from the ledger, contradicting the claim's "the remaining planned
sites are also removed". -/
theorem C3_count_met_keeps_ledger :
    (execute c3w c3g).1 = true ∧
    (execute c3w c3g).2.1.planned_positions_workers = [(⟨0, 0⟩, none)] := by
  constructor
  · norm_num [execute, c3w, c3g, baseWorld, baseGrid]
  · norm_num [execute, c3w, c3g, baseWorld, baseGrid]

/-- Witness for C3 at a concrete input: the count-met early return leaves
the state and event log untouched, and the planned site is removed iff a
build was issued (here: neither). -/
theorem C3_removed_iff_build_issued_witness :
    (execute c3w c3g).2.1 = c3g ∧ (execute c3w c3g).2.2 = [] := by
  have h := C3_removed_iff_build_issued c3w c3g
    (by norm_num [c3g, baseGrid, keysOf])
  exact h.2 (by norm_num [c3w, c3g, baseWorld, baseGrid])

/-- C4 (amended): `execute` reports completion — returning `true` with the
state untouched and no commands issued — exactly when the tech
prerequisite has started *and* the count of existing structures (ready or
under construction, but *excluding* pending build orders:
`include_pending=False, include_not_ready=True`) meets `to_count`. -/
theorem C4_completion_check (w : World) (g : GridBuildingState) :
    execute w g = (true, g, []) ↔
    (0 < w.prerequisite_progress ∧ g.to_count ≤ (w.get_count false true : ℤ)) :=
  execute_true_iff w g

/-- C4 counterexample: (a) one pending build order makes the
ready-or-pending count meet the goal, yet `execute` does not return true
(the done-check uses `include_pending=False`); (b) even with every count
met, `execute` returns false when the prerequisite has not started. -/
theorem C4_pending_not_counted_counterexample :
    ((1 : ℤ) ≤ (c4wPending.get_count true true : ℤ) ∧
     baseGrid.to_count = 1 ∧
     0 < c4wPending.prerequisite_progress ∧
     (execute c4wPending baseGrid).1 = false) ∧
    ((1 : ℤ) ≤ (c4wNoPrereq.get_count true true : ℤ) ∧
     (1 : ℤ) ≤ (c4wNoPrereq.get_count false true : ℤ) ∧
     (execute c4wNoPrereq baseGrid).1 = false) := by
  refine ⟨⟨?_, rfl, ?_, ?_⟩, ?_, ?_, ?_⟩
  · norm_num [c4wPending, baseWorld]
  · norm_num [c4wPending, baseWorld]
  · have h1 : ¬ (c4wPending.prerequisite_progress ≤ 0) := by
      norm_num [c4wPending, baseWorld]
    have h2 : ¬ (baseGrid.to_count ≤ (c4wPending.get_count false true : ℤ)) := by
      norm_num [c4wPending, baseWorld, baseGrid]
    unfold execute
    rw [if_neg h1, if_neg h2]
    exact executeMain_fst _ _
  · norm_num [c4wNoPrereq, baseWorld]
  · norm_num [c4wNoPrereq, baseWorld]
  · have h1 : c4wNoPrereq.prerequisite_progress ≤ 0 := by
      norm_num [c4wNoPrereq, baseWorld]
    unfold execute
    rw [if_pos h1]

/-- C5 (amended): at the end of a planning pass the ledger size never
exceeds the *maximum* of its prior size and
`to_count - pending_and_existing_count`; the pass adds nothing beyond the
shortfall but does not shrink a ledger that already exceeds it. -/
theorem C5_planning_pass_bound (w : World) (g : GridBuildingState) :
    (((plan_positions w g).1.planned_positions_workers.length : ℤ)) ≤
      max ((g.planned_positions_workers.length : ℤ))
        (g.to_count - (w.get_count true true : ℤ)) := by
  unfold plan_positions
  split
  · exact planLoop_length w _ [] _ []
  · exact planLoop_length w _ _ _ []

/-- C5 counterexample: with two sites already planned and
`to_count - pending_and_existing = 1`, the planning pass leaves the
ledger at size 2, exceeding the claimed bound. -/
theorem C5_prior_ledger_exceeds_bound :
    (plan_positions baseWorld c5g).1.planned_positions_workers.length = 2 ∧
    c5g.to_count - (baseWorld.get_count true true : ℤ) = 1 ∧
    ¬ (((plan_positions baseWorld c5g).1.planned_positions_workers.length : ℤ) ≤
        c5g.to_count - (baseWorld.get_count true true : ℤ)) := by
  refine ⟨?_, ?_, ?_⟩
  · norm_num [plan_positions, planLoop, c5g, baseGrid, baseWorld]
  · norm_num [c5g, baseGrid, baseWorld]
  · norm_num [plan_positions, planLoop, c5g, baseGrid, baseWorld]

/-- C6: whenever the pre-move branch runs for a site (priority set, build
attempt refused, resolved worker without a build order), a reservation
for the structure's cost and the computed `build_wait` is submitted to
the ledger — regardless of whether the worker is then committed. -/
theorem C6_reservation_always_submitted (w : World) (st : ExecState) (q : Point2)
    (worker : SCUnit)
    (hres : resolvedWorker w st q = some worker)
    (hbc : buildCond w (eventsAfterResolve w st q) st.grid.override_reserved
      st.received worker q = false)
    (hpri : st.grid.priority = true)
    (hbo : worker.has_build_order = false) :
    Event.reserve w.cost_minerals w.cost_vespene
      (buildWaitTime w worker q st.grid.override_reserved)
      ∈ (processPosition w st q).1.events :=
  premove_reserve_mem w st q worker hres hbc hpri hbo

/-- Witness for C6 at a concrete input: in the C8 scenario (build refused
by affordability, priority goal, free probe, wait 10 > commit threshold)
the reservation is emitted even though the worker is not committed. -/
theorem C6_reservation_always_submitted_witness :
    Event.reserve c8w.cost_minerals c8w.cost_vespene
      (buildWaitTime c8w probe c8p c8st.grid.override_reserved)
      ∈ (processPosition c8w c8st c8p).1.events := by
  refine C6_reservation_always_submitted c8w c8st c8p probe ?_ ?_ ?_ ?_
  · norm_num [resolvedWorker, resolveWorker, lookupPos_cons, c8st, c8g, baseGrid, c8w,
      baseWorld, c8p]
  · norm_num [buildCond, c8w, baseWorld]
  · norm_num [c8st, c8g, baseGrid]
  · norm_num [probe]

/-- C7 (amended): the gas wait time submitted with the pre-move
reservation divides the outstanding gas by `max(gas_income, 0.01)` with
the *raw* gas income — only the mineral income is scaled by the 0.93
harvesting-inefficiency factor.  The reserve event carries the fully
expanded wait formula. -/
theorem C7_gas_wait_uses_raw_income (w : World) (st : ExecState) (q : Point2)
    (worker : SCUnit)
    (hres : resolvedWorker w st q = some worker)
    (hbc : buildCond w (eventsAfterResolve w st q) st.grid.override_reserved
      st.received worker q = false)
    (hpri : st.grid.priority = true)
    (hbo : worker.has_build_order = false) :
    Event.reserve w.cost_minerals w.cost_vespene
      (max (max (max (travelTime w worker q) w.prerequisite_completion_time)
        (max 0 (w.cost_minerals -
            (if st.grid.override_reserved then w.minerals else w.available_minerals)) /
          max (w.mineral_income * (93/100)) (1/100)))
        (max 0 (w.cost_vespene -
            (if st.grid.override_reserved then w.vespene else w.available_gas)) /
          max w.gas_income (1/100)))
      ∈ (processPosition w st q).1.events := by
  have h := premove_reserve_mem w st q worker hres hbc hpri hbo
  have heq : buildWaitTime w worker q st.grid.override_reserved =
      max (max (max (travelTime w worker q) w.prerequisite_completion_time)
        (max 0 (w.cost_minerals -
            (if st.grid.override_reserved then w.minerals else w.available_minerals)) /
          max (w.mineral_income * (93/100)) (1/100)))
        (max 0 (w.cost_vespene -
            (if st.grid.override_reserved then w.vespene else w.available_gas)) /
          max w.gas_income (1/100)) := rfl
  rw [heq] at h
  exact h

/-- C7 counterexample: with 93 outstanding gas and a gas income of 1 the
code's wait is 93, while the claim's 0.93-adjusted formula demands
93 / 0.93 = 100; the reservation actually emitted carries 93, not 100. -/
theorem C7_gas_adjustment_counterexample :
    gasWaitTime c7w false = 93 ∧
    gasWaitTimeSpecAdjusted c7w false = 100 ∧
    (93 : ℚ) ≠ 100 ∧
    Event.reserve 0 93 93 ∈ (processPosition c7w c8st c8p).1.events ∧
    Event.reserve 0 93 100 ∉ (processPosition c7w c8st c8p).1.events := by
  refine ⟨?_, ?_, by norm_num, ?_, ?_⟩
  · norm_num [gasWaitTime, c7w, baseWorld, max_def]
  · norm_num [gasWaitTimeSpecAdjusted, c7w, baseWorld, max_def]
  · norm_num [processPosition, resolvedWorker, resolveWorker, gridAfterResolve,
      eventsAfterResolve, buildCond, buildWaitTime, travelTime, mineralsWaitTime,
      gasWaitTime, lookupPos_cons, odSet, keysOf, addTag, c7w, baseWorld, c8st, c8g,
      baseGrid, c8p, probe, max_def]
    simp
  · norm_num [processPosition, resolvedWorker, resolveWorker, gridAfterResolve,
      eventsAfterResolve, buildCond, buildWaitTime, travelTime, mineralsWaitTime,
      gasWaitTime, lookupPos_cons, odSet, keysOf, addTag, c7w, baseWorld, c8st, c8g,
      baseGrid, c8p, probe, max_def]
    simp

/-- Witness for C7 at a concrete input: the C7 scenario's reservation
carries the expanded wait formula with the raw gas income. -/
theorem C7_gas_wait_uses_raw_income_witness :
    Event.reserve c7w.cost_minerals c7w.cost_vespene
      (max (max (max (travelTime c7w probe c8p) c7w.prerequisite_completion_time)
        (max 0 (c7w.cost_minerals -
            (if c8st.grid.override_reserved then c7w.minerals else c7w.available_minerals)) /
          max (c7w.mineral_income * (93/100)) (1/100)))
        (max 0 (c7w.cost_vespene -
            (if c8st.grid.override_reserved then c7w.vespene else c7w.available_gas)) /
          max c7w.gas_income (1/100)))
      ∈ (processPosition c7w c8st c8p).1.events := by
  refine C7_gas_wait_uses_raw_income c7w c8st c8p probe ?_ ?_ ?_ ?_
  · norm_num [resolvedWorker, resolveWorker, lookupPos_cons, c8st, c8g, baseGrid, c7w,
      baseWorld, c8p]
  · norm_num [buildCond, c7w, baseWorld]
  · norm_num [c8st, c8g, baseGrid]
  · norm_num [probe]

/-- C8: in the concrete pre-move scenario (`minerals_to_collect = 100`,
adjusted mineral income exactly 10, `travel_time = 4`, `tech_wait = 0`,
`gas_wait = 0`) the computed `build_wait` is exactly 10; since
`10 ≥ 4.1 = travel_time + 0.1`, the worker is not assigned and the tick
emits only the reservation — no move command.  Conversely, whenever
`build_wait < travel_time + 0.1` in the pre-move branch, the worker is
assigned to the site and a move toward the site is issued. -/
theorem C8_premove_commit_threshold :
    (travelTime c8w probe c8p = 4 ∧
     buildWaitTime c8w probe c8p false = 10 ∧
     ¬ (10 : ℚ) < 4 + 1/10 ∧
     (execute c8w c8g).2.2 = [Event.reserve 100 0 10] ∧
     lookupPos (execute c8w c8g).2.1.planned_positions_workers c8p = some none) ∧
    (∀ (w : World) (st : ExecState) (q : Point2) (worker : SCUnit),
      resolvedWorker w st q = some worker →
      buildCond w (eventsAfterResolve w st q) st.grid.override_reserved
        st.received worker q = false →
      st.grid.priority = true →
      worker.has_build_order = false →
      buildWaitTime w worker q st.grid.override_reserved <
        travelTime w worker q + 1/10 →
      lookupPos (processPosition w st q).1.grid.planned_positions_workers q =
        some (some worker.tag) ∧
      Event.move worker.tag (w.adjust_build_to_move q) ∈ (processPosition w st q).1.events) := by
  constructor
  · refine ⟨?_, ?_, by norm_num, ?_, ?_⟩
    · norm_num [travelTime, c8w, baseWorld, probe]
    · norm_num [buildWaitTime, travelTime, mineralsWaitTime, gasWaitTime, c8w, baseWorld,
        probe, max_def]
    · norm_num [execute, executeMain, loopResult, preLoopGrid, preLoopEvents,
        plan_positions, planLoop, hygiene, ensurePotential, processList, processPosition,
        resolvedWorker, resolveWorker, gridAfterResolve, eventsAfterResolve, buildCond,
        buildWaitTime, travelTime, mineralsWaitTime, gasWaitTime, lookupPos_cons, odSet,
        keysOf, addTag, c8w, baseWorld, c8g, baseGrid, c8p, probe, max_def]
      simp
    · norm_num [execute, executeMain, loopResult, preLoopGrid, preLoopEvents,
        plan_positions, planLoop, hygiene, ensurePotential, processList, processPosition,
        resolvedWorker, resolveWorker, gridAfterResolve, eventsAfterResolve, buildCond,
        buildWaitTime, travelTime, mineralsWaitTime, gasWaitTime, lookupPos_cons, odSet,
        keysOf, addTag, c8w, baseWorld, c8g, baseGrid, c8p, probe, max_def]
      simp [lookupPos_cons]
  · intro w st q worker hres hbc hpri hbo hbw
    exact premove_commit w st q worker hres hbc hpri hbo hbw

/-- Witness for C8's conditional part at a concrete input: with all
resources free and travel time 20, `build_wait = 20 < 20.1`, so the
pre-move assigns the probe to the site and issues the move. -/
theorem C8_premove_commit_threshold_witness :
    lookupPos (processPosition c8bw c8st c8p).1.grid.planned_positions_workers c8p =
      some (some probe.tag) ∧
    Event.move probe.tag (c8bw.adjust_build_to_move c8p)
      ∈ (processPosition c8bw c8st c8p).1.events := by
  refine C8_premove_commit_threshold.2 c8bw c8st c8p probe ?_ ?_ ?_ ?_ ?_
  · norm_num [resolvedWorker, resolveWorker, lookupPos_cons, c8st, c8g, baseGrid, c8bw,
      baseWorld, c8p]
  · norm_num [buildCond, c8bw, baseWorld]
  · norm_num [c8st, c8g, baseGrid]
  · norm_num [probe]
  · norm_num [buildWaitTime, travelTime, mineralsWaitTime, gasWaitTime, c8bw, baseWorld,
      probe, c8st, c8g, baseGrid, max_def]

/-- C9: when the assigned worker of a planned site no longer exists, or
the stuck detector flags it, the resolution step keeps the site's entry in
the ledger at its original position and ordering — the key sequence is
unchanged — and rewrites only its assigned-worker field to `none`, leaving
every other entry untouched, so that a different worker can later be
attached to the same position. -/
theorem C9_clearing_keeps_site (w : World) (ws : WorkerStuckStatus)
    (m : List (Point2 × Option ℕ)) (q : Point2) (tag : ℕ)
    (hlk : lookupPos m q = some (some tag))
    (hgone : w.by_tag tag = none ∨
      ∃ u, w.by_tag tag = some u ∧ (need_new_worker ws u w.time q w.iteration).1 = true) :
    keysOf (resolveWorker w ws m q).2.2.1 = keysOf m ∧
    lookupPos (resolveWorker w ws m q).2.2.1 q = some none ∧
    ∀ p, p ≠ q → lookupPos (resolveWorker w ws m q).2.2.1 p = lookupPos m p := by
  refine ⟨resolveWorker_keys w ws m q, ?_,
    fun p hpq => resolveWorker_lookup_ne w ws m q p hpq⟩
  rw [resolveWorker_cleared w ws m q tag hlk hgone, lookupPos_odSet_self]

/-- Witness for C9 at a concrete input: worker 5 assigned at the first of
two planned sites has disappeared from the world; the key sequence is
unchanged and the site is now unassigned. -/
theorem C9_clearing_keeps_site_witness :
    keysOf (resolveWorker baseWorld WorkerStuckStatus.init c9m ⟨0, 0⟩).2.2.1 = keysOf c9m ∧
    lookupPos (resolveWorker baseWorld WorkerStuckStatus.init c9m ⟨0, 0⟩).2.2.1 ⟨0, 0⟩ =
      some none ∧
    lookupPos (resolveWorker baseWorld WorkerStuckStatus.init c9m ⟨0, 0⟩).2.2.1 ⟨1, 1⟩ =
      some (some 6) := by
  have h := C9_clearing_keeps_site baseWorld WorkerStuckStatus.init c9m ⟨0, 0⟩ 5
    (by norm_num [c9m, lookupPos_cons]) (Or.inl rfl)
  refine ⟨h.1, h.2.1, ?_⟩
  rw [h.2.2 ⟨1, 1⟩ (by norm_num)]
  norm_num [c9m, lookupPos_cons]

/-- C10: the supply prediction that the auto-pylon goal uses to derive its
dynamic `to_count` is clamped to 200: whenever the raw prediction exceeds
200, the value fed into the pylon-count formula is exactly 200. -/
theorem C10_supply_prediction_clamped (w : PylonWorld)
    (h : 200 < predict_supply w 3) :
    supplyPrediction w = 200 ∧
    pylon_count_calc w = ⌈((200 : ℚ) - 15 * (nexusCount w : ℚ)) / 8⌉ := by
  have h1 : supplyPrediction w = 200 := by
    unfold supplyPrediction
    exact min_eq_right h.le
  refine ⟨h1, ?_⟩
  unfold pylon_count_calc
  rw [h1]

/-- Witness for C10 at a concrete input: with `supply_used = 250` and
nothing in production, the raw prediction is 250 > 200; the clamped value
is exactly 200 and the resulting pylon goal is `ceil(200 / 8) = 25`. -/
theorem C10_supply_prediction_clamped_witness :
    predict_supply c10w 3 = 250 ∧
    supplyPrediction c10w = 200 ∧
    pylon_count_calc c10w = 25 := by
  have hval : predict_supply c10w 3 = 250 := by
    norm_num [predict_supply, c10w]
  have h := C10_supply_prediction_clamped c10w (by rw [hval]; norm_num)
  refine ⟨hval, h.1, ?_⟩
  rw [h.2]
  have hq : ((200 : ℚ) - 15 * (nexusCount c10w : ℚ)) / 8 = 25 := by
    norm_num [nexusCount, c10w]
  rw [hq, Int.ceil_eq_iff]
  norm_num
